import Mathlib

/-!
Verification of the flatgrid library: a row-major 2D grid of text cells
with per-cell alignment, color and style decoration, and a bordered
text rendering pass.

The definitions below are a shallow embedding of the Rust sources
(src/grid.rs, src/cell.rs, src/align.rs, src/color.rs, src/style.rs,
src/format.rs, src/ansi.rs, src/border.rs, src/error.rs).  Rust
`String` values are embedded as `List Char` (sequences of unicode
scalars); the library's own spec declares width measurement to be plain
char/byte length with no grapheme awareness, and all decoration strings
are ASCII, so char-level and byte-level indexing agree on everything
the claims mention.  Rust `Vec<Cell>` is embedded as `List Cell`;
in-place index assignment becomes `List.set` and `std::mem::take`
becomes a read (`List.getD`) followed by writing the default value
back into the source slot.  Functions that can abort (Rust panicking
calls, or `unwrap` on an iterator) return `PanicOr`; fallible `try_*`
functions return `PanicOr (GridResult _)` mirroring Rust
`Result<_, GridError>` nested under possible aborts of the delegated
infallible function.
-/

/-- Rust `String` / `&str`, embedded as a list of unicode scalars. -/
abbrev Str := List Char

/-- Outcome of a Rust computation that can abort with a message. -/
inductive PanicOr (α : Type) where
  | panicked (msg : Str) : PanicOr α
  | ok (val : α) : PanicOr α
deriving DecidableEq, Repr

/-- Error taxonomy of src/error.rs (`GridError`). -/
inductive GridError where
  | rowIndexOutOfBounds
  | colIndexOutOfBounds
  | rowAndColIndexOutOfBounds
deriving DecidableEq, Repr

/-- Rust `Result<α, GridError>` as returned by the `try_*` grid operations. -/
inductive GridResult (α : Type) where
  | error (e : GridError) : GridResult α
  | ok (val : α) : GridResult α
deriving DecidableEq, Repr

/-- Abort messages of src/error.rs (`ErrorMessage`). -/
def ErrorMessage.ROW_INDEX_OUT_OF_BOUNDS : Str := "Row index out of bounds".toList

/-- Abort message for a column index out of bounds. -/
def ErrorMessage.COL_INDEX_OUT_OF_BOUNDS : Str := "Column index out of bounds".toList

/-- Abort message for both indices out of bounds. -/
def ErrorMessage.ROW_AND_COL_INDEX_OUT_OF_BOUNDS : Str := "Row and column index out of bounds".toList

/-! ### src/ansi.rs: escape-code constants -/

def RESET_ANSI_CODE : Str := "\x1b[0m".toList

def BOLD_ANSI_CODE : Str := "\x1b[1m".toList
def DIM_ANSI_CODE : Str := "\x1b[2m".toList
def ITALIC_ANSI_CODE : Str := "\x1b[3m".toList
def UNDERLINE_ANSI_CODE : Str := "\x1b[4m".toList
def BLINK_ANSI_CODE : Str := "\x1b[5m".toList
def REVERSE_ANSI_CODE : Str := "\x1b[7m".toList
def HIDDEN_ANSI_CODE : Str := "\x1b[8m".toList
def STRIKE_ANSI_CODE : Str := "\x1b[9m".toList

def BLACK_ANSI_CODE : Str := "\x1b[30m".toList
def RED_ANSI_CODE : Str := "\x1b[31m".toList
def GREEN_ANSI_CODE : Str := "\x1b[32m".toList
def YELLOW_ANSI_CODE : Str := "\x1b[33m".toList
def BLUE_ANSI_CODE : Str := "\x1b[34m".toList
def MAGENTA_ANSI_CODE : Str := "\x1b[35m".toList
def CYAN_ANSI_CODE : Str := "\x1b[36m".toList
def WHITE_ANSI_CODE : Str := "\x1b[37m".toList
def BRIGHT_BLACK_ANSI_CODE : Str := "\x1b[90m".toList
def BRIGHT_RED_ANSI_CODE : Str := "\x1b[91m".toList
def BRIGHT_GREEN_ANSI_CODE : Str := "\x1b[92m".toList
def BRIGHT_YELLOW_ANSI_CODE : Str := "\x1b[93m".toList
def BRIGHT_BLUE_ANSI_CODE : Str := "\x1b[94m".toList
def BRIGHT_MAGENTA_ANSI_CODE : Str := "\x1b[95m".toList
def BRIGHT_CYAN_ANSI_CODE : Str := "\x1b[96m".toList
def BRIGHT_WHITE_ANSI_CODE : Str := "\x1b[97m".toList

def ON_BLACK_ANSI_CODE : Str := "\x1b[40m".toList
def ON_RED_ANSI_CODE : Str := "\x1b[41m".toList
def ON_GREEN_ANSI_CODE : Str := "\x1b[42m".toList
def ON_YELLOW_ANSI_CODE : Str := "\x1b[43m".toList
def ON_BLUE_ANSI_CODE : Str := "\x1b[44m".toList
def ON_MAGENTA_ANSI_CODE : Str := "\x1b[45m".toList
def ON_CYAN_ANSI_CODE : Str := "\x1b[46m".toList
def ON_WHITE_ANSI_CODE : Str := "\x1b[47m".toList
def ON_BRIGHT_BLACK_ANSI_CODE : Str := "\x1b[100m".toList
def ON_BRIGHT_RED_ANSI_CODE : Str := "\x1b[101m".toList
def ON_BRIGHT_GREEN_ANSI_CODE : Str := "\x1b[102m".toList
def ON_BRIGHT_YELLOW_ANSI_CODE : Str := "\x1b[103m".toList
def ON_BRIGHT_BLUE_ANSI_CODE : Str := "\x1b[104m".toList
def ON_BRIGHT_MAGENTA_ANSI_CODE : Str := "\x1b[105m".toList
def ON_BRIGHT_CYAN_ANSI_CODE : Str := "\x1b[106m".toList
def ON_BRIGHT_WHITE_ANSI_CODE : Str := "\x1b[107m".toList

/-! ### src/color.rs: color string vocabulary and decoration lookup -/

namespace Color

def BLACK : Str := "black".toList
def RED : Str := "red".toList
def GREEN : Str := "green".toList
def YELLOW : Str := "yellow".toList
def BLUE : Str := "blue".toList
def MAGENTA : Str := "magenta".toList
def CYAN : Str := "cyan".toList
def WHITE : Str := "white".toList
def BRIGHT_BLACK : Str := "bright black".toList
def BRIGHT_RED : Str := "bright red".toList
def BRIGHT_GREEN : Str := "bright green".toList
def BRIGHT_YELLOW : Str := "bright yellow".toList
def BRIGHT_BLUE : Str := "bright blue".toList
def BRIGHT_MAGENTA : Str := "bright magenta".toList
def BRIGHT_CYAN : Str := "bright cyan".toList
def BRIGHT_WHITE : Str := "bright white".toList

end Color

/-- Foreground colors (src/color.rs, `enum Foreground`). -/
inductive Foreground where
  | black | red | green | yellow | blue | magenta | cyan | white
  | brightBlack | brightRed | brightGreen | brightYellow
  | brightBlue | brightMagenta | brightCyan | brightWhite
deriving DecidableEq, Repr

/-- Permissive color parsing (`Foreground::from_str`): `none` on an unrecognized string. -/
def Foreground.from_str (color : Str) : Option Foreground :=
  if color = Color.BLACK then some .black
  else if color = Color.RED then some .red
  else if color = Color.GREEN then some .green
  else if color = Color.YELLOW then some .yellow
  else if color = Color.BLUE then some .blue
  else if color = Color.MAGENTA then some .magenta
  else if color = Color.CYAN then some .cyan
  else if color = Color.WHITE then some .white
  else if color = Color.BRIGHT_BLACK then some .brightBlack
  else if color = Color.BRIGHT_RED then some .brightRed
  else if color = Color.BRIGHT_GREEN then some .brightGreen
  else if color = Color.BRIGHT_YELLOW then some .brightYellow
  else if color = Color.BRIGHT_BLUE then some .brightBlue
  else if color = Color.BRIGHT_MAGENTA then some .brightMagenta
  else if color = Color.BRIGHT_CYAN then some .brightCyan
  else if color = Color.BRIGHT_WHITE then some .brightWhite
  else none

/-- Rust `Foreground::as_ansi_code`. -/
def Foreground.as_ansi_code : Foreground → Str
  | .black => BLACK_ANSI_CODE
  | .red => RED_ANSI_CODE
  | .green => GREEN_ANSI_CODE
  | .yellow => YELLOW_ANSI_CODE
  | .blue => BLUE_ANSI_CODE
  | .magenta => MAGENTA_ANSI_CODE
  | .cyan => CYAN_ANSI_CODE
  | .white => WHITE_ANSI_CODE
  | .brightBlack => BRIGHT_BLACK_ANSI_CODE
  | .brightRed => BRIGHT_RED_ANSI_CODE
  | .brightGreen => BRIGHT_GREEN_ANSI_CODE
  | .brightYellow => BRIGHT_YELLOW_ANSI_CODE
  | .brightBlue => BRIGHT_BLUE_ANSI_CODE
  | .brightMagenta => BRIGHT_MAGENTA_ANSI_CODE
  | .brightCyan => BRIGHT_CYAN_ANSI_CODE
  | .brightWhite => BRIGHT_WHITE_ANSI_CODE

/-- Background colors (src/color.rs, `enum Background`). -/
inductive Background where
  | black | red | green | yellow | blue | magenta | cyan | white
  | brightBlack | brightRed | brightGreen | brightYellow
  | brightBlue | brightMagenta | brightCyan | brightWhite
deriving DecidableEq, Repr

/-- Permissive color parsing (`Background::from_str`): `none` on an unrecognized string. -/
def Background.from_str (color : Str) : Option Background :=
  if color = Color.BLACK then some .black
  else if color = Color.RED then some .red
  else if color = Color.GREEN then some .green
  else if color = Color.YELLOW then some .yellow
  else if color = Color.BLUE then some .blue
  else if color = Color.MAGENTA then some .magenta
  else if color = Color.CYAN then some .cyan
  else if color = Color.WHITE then some .white
  else if color = Color.BRIGHT_BLACK then some .brightBlack
  else if color = Color.BRIGHT_RED then some .brightRed
  else if color = Color.BRIGHT_GREEN then some .brightGreen
  else if color = Color.BRIGHT_YELLOW then some .brightYellow
  else if color = Color.BRIGHT_BLUE then some .brightBlue
  else if color = Color.BRIGHT_MAGENTA then some .brightMagenta
  else if color = Color.BRIGHT_CYAN then some .brightCyan
  else if color = Color.BRIGHT_WHITE then some .brightWhite
  else none

/-- Rust `Background::as_ansi_code`. -/
def Background.as_ansi_code : Background → Str
  | .black => ON_BLACK_ANSI_CODE
  | .red => ON_RED_ANSI_CODE
  | .green => ON_GREEN_ANSI_CODE
  | .yellow => ON_YELLOW_ANSI_CODE
  | .blue => ON_BLUE_ANSI_CODE
  | .magenta => ON_MAGENTA_ANSI_CODE
  | .cyan => ON_CYAN_ANSI_CODE
  | .white => ON_WHITE_ANSI_CODE
  | .brightBlack => ON_BRIGHT_BLACK_ANSI_CODE
  | .brightRed => ON_BRIGHT_RED_ANSI_CODE
  | .brightGreen => ON_BRIGHT_GREEN_ANSI_CODE
  | .brightYellow => ON_BRIGHT_YELLOW_ANSI_CODE
  | .brightBlue => ON_BRIGHT_BLUE_ANSI_CODE
  | .brightMagenta => ON_BRIGHT_MAGENTA_ANSI_CODE
  | .brightCyan => ON_BRIGHT_CYAN_ANSI_CODE
  | .brightWhite => ON_BRIGHT_WHITE_ANSI_CODE

/-! ### src/style.rs: font style flags (the module used by src/cell.rs) -/

namespace Style

def BOLD : Str := "bold".toList
def DIM : Str := "dim".toList
def ITALIC : Str := "italic".toList
def UNDERLINE : Str := "underline".toList
def BLINK : Str := "blink".toList
def REVERSE : Str := "reverse".toList
def HIDDEN : Str := "hidden".toList
def STRIKE : Str := "strike".toList

end Style

/-- Individual font styles (src/style.rs, `enum FontStyle`). -/
inductive FontStyle where
  | bold | dim | italic | underline | blink | reverse | hidden | strike
deriving DecidableEq, Repr

/-- Bitfield of font styles (src/style.rs, `struct FontStyleFlag`), a `u8`. -/
structure FontStyleFlag where
  flag : Nat
deriving DecidableEq, Repr

namespace FontStyleFlag

def BOLD : Nat := 1
def DIM : Nat := 2
def ITALIC : Nat := 4
def UNDERLINE : Nat := 8
def BLINK : Nat := 16
def REVERSE : Nat := 32
def HIDDEN : Nat := 64
def STRIKE : Nat := 128

/-- Declaration-order table of all flags (`FontStyleFlag::ALL_FLAGS`). -/
def ALL_FLAGS : List Nat := [BOLD, DIM, ITALIC, UNDERLINE, BLINK, REVERSE, HIDDEN, STRIKE]

/-- Rust `FontStyleFlag::new`: no styles set. -/
def new : FontStyleFlag := ⟨0⟩

/-- Rust `FontStyleFlag::set`: bitwise-or the given flag bits in. -/
def set (s : FontStyleFlag) (f : Nat) : FontStyleFlag := ⟨s.flag ||| f⟩

/-- Rust `FontStyleFlag::reset`: clear all flags. -/
def reset (_ : FontStyleFlag) : FontStyleFlag := ⟨0⟩

end FontStyleFlag

/-- Rust `FontStyle::as_flag`. -/
def FontStyle.as_flag : FontStyle → Nat
  | .bold => FontStyleFlag.BOLD
  | .dim => FontStyleFlag.DIM
  | .italic => FontStyleFlag.ITALIC
  | .underline => FontStyleFlag.UNDERLINE
  | .blink => FontStyleFlag.BLINK
  | .reverse => FontStyleFlag.REVERSE
  | .hidden => FontStyleFlag.HIDDEN
  | .strike => FontStyleFlag.STRIKE

/-- Permissive style parsing (`FontStyle::from_str`): `none` on an unrecognized string. -/
def FontStyle.from_str (style : Str) : Option FontStyle :=
  if style = Style.BOLD then some .bold
  else if style = Style.DIM then some .dim
  else if style = Style.ITALIC then some .italic
  else if style = Style.UNDERLINE then some .underline
  else if style = Style.BLINK then some .blink
  else if style = Style.REVERSE then some .reverse
  else if style = Style.HIDDEN then some .hidden
  else if style = Style.STRIKE then some .strike
  else none

/-- Rust `FontStyle::as_style_ansi_code`. -/
def FontStyle.as_style_ansi_code : FontStyle → Str
  | .bold => BOLD_ANSI_CODE
  | .dim => DIM_ANSI_CODE
  | .italic => ITALIC_ANSI_CODE
  | .underline => UNDERLINE_ANSI_CODE
  | .blink => BLINK_ANSI_CODE
  | .reverse => REVERSE_ANSI_CODE
  | .hidden => HIDDEN_ANSI_CODE
  | .strike => STRIKE_ANSI_CODE

/-- Rust `FontStyle::from_flag` restricted to single-bit flags, as produced by the
iterator below; the catch-all arm of the source aborts on other inputs and is
never reached from `ALL_FLAGS`. -/
def FontStyle.from_flag (f : Nat) : FontStyle :=
  if f = FontStyleFlag.BOLD then .bold
  else if f = FontStyleFlag.DIM then .dim
  else if f = FontStyleFlag.ITALIC then .italic
  else if f = FontStyleFlag.UNDERLINE then .underline
  else if f = FontStyleFlag.BLINK then .blink
  else if f = FontStyleFlag.REVERSE then .reverse
  else if f = FontStyleFlag.HIDDEN then .hidden
  else .strike

/-- Iteration over the set bits of a `FontStyleFlag` in declaration order
(`FontStyleFlagIter`), yielding the corresponding `FontStyle` values. -/
def FontStyleFlag.styles (s : FontStyleFlag) : List FontStyle :=
  (FontStyleFlag.ALL_FLAGS.filter (fun f => s.flag &&& f ≠ 0)).map FontStyle.from_flag

/-! ### src/align.rs: alignment bitflags and string vocabulary -/

/-- Vertical alignment (src/align.rs, `enum AlignV`); the `Top` variant is the default. -/
inductive AlignV where
  | top | bottom | middle
deriving DecidableEq, Repr

instance : Inhabited AlignV := ⟨.top⟩

/-- Horizontal alignment (src/align.rs, `enum AlignH`); the `Left` variant is the default. -/
inductive AlignH where
  | left | right | center
deriving DecidableEq, Repr

instance : Inhabited AlignH := ⟨.left⟩

/-- Bit-packed alignment (src/align.rs, `struct Align(u8)`). -/
structure Align where
  val : Nat
deriving DecidableEq, Repr

namespace Align

def Top : Align := ⟨1⟩
def Bottom : Align := ⟨2⟩
def Middle : Align := ⟨4⟩
def Left : Align := ⟨8⟩
def Right : Align := ⟨16⟩
def Center : Align := ⟨32⟩

/-- Rust `Align::H_MASK = Left | Center | Right`. -/
def H_MASK : Nat := Left.val ||| Center.val ||| Right.val

/-- Rust `Align::V_MASK = Top | Middle | Bottom`. -/
def V_MASK : Nat := Top.val ||| Middle.val ||| Bottom.val

/-- Rust `Align::get_h`: the horizontal axis of the bitfield, when it holds exactly
one horizontal flag. -/
def get_h (a : Align) : Option AlignH :=
  let h := a.val &&& H_MASK
  if h = Left.val then some .left
  else if h = Right.val then some .right
  else if h = Center.val then some .center
  else none

/-- Rust `Align::get_v`: the vertical axis of the bitfield, when it holds exactly
one vertical flag. -/
def get_v (a : Align) : Option AlignV :=
  let v := a.val &&& V_MASK
  if v = Top.val then some .top
  else if v = Bottom.val then some .bottom
  else if v = Middle.val then some .middle
  else none

/-- Rust `impl BitOr for Align`; `!mask` on a `u8` is `255 ^^^ mask`. -/
def bitor (a rhs : Align) : Align :=
  let h := (a.val &&& (255 ^^^ H_MASK)) ||| (rhs.val &&& H_MASK)
  let v := (a.val &&& (255 ^^^ V_MASK)) ||| (rhs.val &&& V_MASK)
  ⟨h ||| v⟩

end Align

/-! Alignment string vocabulary (`AlignString`).  src/cell.rs imports
`AlignString` from src/align.rs, but the file under src does not contain its
definition, so the six constants are repository code missing from src/. -/

namespace AlignString

/-- Modelled from the spec: the missing `AlignString::TOP` constant; §6 gives
the vertical-axis vocabulary `"top" | "bottom" | "middle"`. -/
def TOP : Str := "top".toList

/-- Modelled from the spec: the missing `AlignString::BOTTOM` constant. -/
def BOTTOM : Str := "bottom".toList

/-- Modelled from the spec: the missing `AlignString::MIDDLE` constant. -/
def MIDDLE : Str := "middle".toList

/-- Modelled from the spec: the missing `AlignString::LEFT` constant; §6 gives
the horizontal-axis vocabulary `"left" | "right" | "center"`. -/
def LEFT : Str := "left".toList

/-- Modelled from the spec: the missing `AlignString::RIGHT` constant. -/
def RIGHT : Str := "right".toList

/-- Modelled from the spec: the missing `AlignString::CENTER` constant. -/
def CENTER : Str := "center".toList

end AlignString

/-! ### String helpers shared by the embedding -/

/-- Split a string at newline characters; every split point produces a piece,
so a trailing newline yields a trailing empty piece (Rust `split('\n')`). -/
def splitOnNL : Str → List Str
  | [] => [[]]
  | c :: rest =>
    if c = '\n' then [] :: splitOnNL rest
    else
      match splitOnNL rest with
      | [] => [[c]]
      | p :: ps => (c :: p) :: ps

/-- Drop one carriage return at the end of a line that preceded a newline. -/
def stripTrailingCR (l : Str) : Str :=
  if l.getLast? = some '\r' then l.dropLast else l

/-- Post-processing of `splitOnNL` pieces for Rust `str::lines`: every piece
but the last was followed by a newline and loses a trailing carriage return;
the final piece is dropped when empty (optional final line ending). -/
def rustLinesAux : List Str → List Str
  | [] => []
  | [last] => if last.isEmpty then [] else [last]
  | p :: rest => stripTrailingCR p :: rustLinesAux rest

/-- Rust `str::lines`, as used by `Cell::height`, `Cell::width` and
`Cell::render_lines`. -/
def rustLines (s : Str) : List Str :=
  rustLinesAux (splitOnNL s)

/-- Rust `Vec::resize(n, d)`: pad with `d` up to length `n`, or truncate. -/
def listResize (l : List α) (n : Nat) (d : α) : List α :=
  if l.length ≤ n then l ++ List.replicate (n - l.length) d else l.take n

/-- Rust iterator `.max().unwrap_or(0)` over a list of naturals. -/
def maxOrZero (l : List Nat) : Nat := l.foldr Nat.max 0

/-- State step for removing ANSI escape sequences: the flag records being
inside an escape sequence, which ends at the next `m`. -/
def stripAnsiStep (st : Bool × Str) (c : Char) : Bool × Str :=
  match st with
  | (true, acc) => if c = 'm' then (false, acc) else (true, acc)
  | (false, acc) => if c = '\x1b' then (true, acc) else (false, acc ++ [c])

/-- Remove ANSI escape sequences (introduced by `\x1b` and terminated by `m`)
from a rendered line: what remains are the visible characters the spec's
display-width measurement refers to. -/
def stripAnsi (s : Str) : Str :=
  (s.foldl stripAnsiStep (false, [])).2

/-! ### src/format.rs: `apply_ansi_formatting` -/

/-- Rust `apply_ansi_formatting(text, fg_color, bg_color, style_flags)`: open all
active decoration codes before the text and close with a single reset code
when at least one decoration was emitted. -/
def apply_ansi_formatting (text : Str) (fg_color : Option Foreground)
    (bg_color : Option Background) (style_flags : FontStyleFlag) : Str :=
  let fgPart := match fg_color with
    | some color => color.as_ansi_code
    | none => []
  let bgPart := match bg_color with
    | some color => color.as_ansi_code
    | none => []
  let stylePart := (style_flags.styles.map FontStyle.as_style_ansi_code).flatten
  let is_formatted := fg_color.isSome || bg_color.isSome || !style_flags.styles.isEmpty
  fgPart ++ bgPart ++ stylePart ++ text ++ (if is_formatted then RESET_ANSI_CODE else [])

/-! ### src/cell.rs: `Cell` -/

/-- A grid cell (src/cell.rs, `struct Cell`).  The `width_opt` / `height_opt`
fields are the source's `width` / `height` explicit-override fields, renamed
so the measurement functions below can keep the source's method names. -/
structure Cell where
  data : Str
  h_align : Option AlignH
  v_align : Option AlignV
  fg_color : Option Foreground
  bg_color : Option Background
  font_style : FontStyleFlag
  width_opt : Option Nat
  height_opt : Option Nat
deriving DecidableEq, Repr

namespace Cell

/-- Rust `Cell::new`: the given content, everything else unset. -/
def new (data : Str) : Cell :=
  ⟨data, none, none, none, none, FontStyleFlag.new, none, none⟩

/-- Rust `Cell::default` (all fields at their defaults; equal to `Cell::new("")`). -/
def default : Cell := new []

/-- Rust `Cell::set_data`. -/
def set_data (c : Cell) (new_data : Str) : Cell := { c with data := new_data }

/-- Rust `Cell::height`: explicit override, or the number of content lines. -/
def height (c : Cell) : Nat :=
  match c.height_opt with
  | some h => h
  | none => (rustLines c.data).length

/-- Rust `Cell::set_height`. -/
def set_height (c : Cell) (new_height : Nat) : Cell := { c with height_opt := some new_height }

/-- Rust `Cell::clear_height`. -/
def clear_height (c : Cell) : Cell := { c with height_opt := none }

/-- Rust `Cell::width`: explicit override, or the longest content line length. -/
def width (c : Cell) : Nat :=
  match c.width_opt with
  | some w => w
  | none => maxOrZero ((rustLines c.data).map List.length)

/-- Rust `Cell::set_width`. -/
def set_width (c : Cell) (new_width : Nat) : Cell := { c with width_opt := some new_width }

/-- Rust `Cell::clear_width`. -/
def clear_width (c : Cell) : Cell := { c with width_opt := none }

/-- Rust `Cell::set_align_from`: string-based alignment setter; a recognized string
updates exactly one axis, an unrecognized string is ignored. -/
def set_align_from (c : Cell) (new_align : Str) : Cell :=
  if new_align = AlignString.TOP then { c with v_align := some .top }
  else if new_align = AlignString.BOTTOM then { c with v_align := some .bottom }
  else if new_align = AlignString.MIDDLE then { c with v_align := some .middle }
  else if new_align = AlignString.LEFT then { c with h_align := some .left }
  else if new_align = AlignString.RIGHT then { c with h_align := some .right }
  else if new_align = AlignString.CENTER then { c with h_align := some .center }
  else c

/-- Rust `Cell::set_align`: both axes are overwritten with the bitfield's per-axis
resolution. -/
def set_align (c : Cell) (new_align : Align) : Cell :=
  { c with h_align := new_align.get_h, v_align := new_align.get_v }

/-- Rust `Cell::set_color`: the foreground field is overwritten with the parse
result, so an unrecognized string stores `none`. -/
def set_color (c : Cell) (new_color : Str) : Cell :=
  { c with fg_color := Foreground.from_str new_color }

/-- Rust `Cell::set_highlight`: the background field is overwritten with the parse
result, so an unrecognized string stores `none`. -/
def set_highlight (c : Cell) (new_color : Str) : Cell :=
  { c with bg_color := Background.from_str new_color }

/-- Rust `Cell::set_style_from`: a recognized style is or-ed into the flag set; an
unrecognized string changes nothing. -/
def set_style_from (c : Cell) (new_style : Str) : Cell :=
  match FontStyle.from_str new_style with
  | some style => { c with font_style := c.font_style.set style.as_flag }
  | none => c

/-- Rust `Cell::remove_format`: alignment, colors and styles are cleared; content
and the explicit width/height overrides are kept. -/
def remove_format (c : Cell) : Cell :=
  { c with h_align := none, v_align := none, fg_color := none, bg_color := none,
           font_style := c.font_style.reset }

/-- Rust `format!("{:<width$}", line)`: pad on the right up to `width`. -/
def padLeftAlign (line : Str) (width : Nat) : Str :=
  line ++ List.replicate (width - line.length) ' '

/-- Rust `format!("{:>width$}", line)`: pad on the left up to `width`. -/
def padRightAlign (line : Str) (width : Nat) : Str :=
  List.replicate (width - line.length) ' ' ++ line

/-- Rust `format!("{:^width$}", line)`: split the padding, extra space on the
right. -/
def padCenterAlign (line : Str) (width : Nat) : Str :=
  let pad := width - line.length
  List.replicate (pad / 2) ' ' ++ line ++ List.replicate (pad - pad / 2) ' '

/-- The body of the content-line loop of `Cell::render_lines`: the decorated
line is padded to the target width by horizontal alignment when the
undecorated length is short, kept when exact, and sliced to the first
`target_cell_width` characters when long.  The padding width compensates for
the decoration overhead (`target_cell_width + line.len() - visible_len`). -/
def renderContentLine (h_align : AlignH) (target_cell_width : Nat)
    (visible_len : Nat) (line : Str) : Str :=
  if visible_len < target_cell_width then
    let width := target_cell_width + line.length - visible_len
    match h_align with
    | .left => padLeftAlign line width
    | .right => padRightAlign line width
    | .center => padCenterAlign line width
  else if visible_len = target_cell_width then line
  else line.take target_cell_width

/-- Rust `Cell::render_lines(target_cell_height, target_cell_width)`: vertical
padding around the decorated, aligned or truncated content lines.  The source
walks the visible lengths and the decorated lines as two zipped iterators
over the same `data.lines()`; the embedding fuses them into one map. -/
def render_lines (c : Cell) (target_cell_height target_cell_width : Nat) : List Str :=
  let contentLines := (rustLines c.data).map (fun raw =>
    renderContentLine (c.h_align.getD .left) target_cell_width raw.length
      (apply_ansi_formatting raw c.fg_color c.bg_color c.font_style))
  let height := (rustLines c.data).length
  let v_align := c.v_align.getD .top
  let pad_count := target_cell_height - height
  let pad_string : Str := List.replicate target_cell_width ' '
  let topPad : List Str := match v_align with
    | .top => []
    | .bottom => List.replicate pad_count pad_string
    | .middle => List.replicate (pad_count / 2) pad_string
  let botPad : List Str := match v_align with
    | .top => List.replicate pad_count pad_string
    | .bottom => []
    | .middle => List.replicate (pad_count - pad_count / 2) pad_string
  topPad ++ contentLines ++ botPad

end Cell

instance : Inhabited Cell := ⟨Cell.default⟩

/-! ### src/border.rs: border glyphs and border line rendering -/

namespace Border

def TOP_LEFT : Str := " ┌─".toList
def TOP_MIDDLE : Str := "─┬─".toList
def TOP_RIGHT : Str := "─┐ ".toList
def MIDDLE_LEFT : Str := " ├─".toList
def MIDDLE_MIDDLE : Str := "─┼─".toList
def MIDDLE_RIGHT : Str := "─┤ ".toList
def BOTTOM_LEFT : Str := " └─".toList
def BOTTOM_MIDDLE : Str := "─┴─".toList
def BOTTOM_RIGHT : Str := "─┘ ".toList
def VERTICAL : Str := " │ ".toList
def HORIZONTAL : Str := "─".toList

/-- Rust `Border::render_border`: per-column horizontal fill joined by the tier's
intersection glyph, wrapped in the leftmost and rightmost glyphs. -/
def render_border (column_widths : List Nat) (horizontal_fill rightmost middle leftmost : Str) : Str :=
  let mid := List.intercalate middle
    (column_widths.map (fun width => (List.replicate width horizontal_fill).flatten))
  leftmost ++ mid ++ rightmost

/-- Rust `Border::render_top_border`. -/
def render_top_border (column_widths : List Nat) : Str :=
  render_border column_widths HORIZONTAL TOP_RIGHT TOP_MIDDLE TOP_LEFT

/-- Rust `Border::render_mid_border`. -/
def render_mid_border (column_widths : List Nat) : Str :=
  render_border column_widths HORIZONTAL MIDDLE_RIGHT MIDDLE_MIDDLE MIDDLE_LEFT

/-- Rust `Border::render_bot_border`. -/
def render_bot_border (column_widths : List Nat) : Str :=
  render_border column_widths HORIZONTAL BOTTOM_RIGHT BOTTOM_MIDDLE BOTTOM_LEFT

/-- Rust `Border::render_row_lines`: one output line of a row, the per-column line
pieces joined and framed by the vertical glyph. -/
def render_row_lines (lines : List Str) : Str :=
  VERTICAL ++ List.intercalate VERTICAL lines ++ VERTICAL

end Border

/-! ### src/grid.rs: `Grid` and its operations -/

/-- The grid (src/grid.rs, `struct Grid`): a flat row-major cell vector with
its two dimensions. -/
structure Grid where
  cells : List Cell
  row_size : Nat
  col_size : Nat
deriving DecidableEq, Repr

/-- Descending loop counter `(0..n).rev()`. -/
def revRange (n : Nat) : List Nat := (List.range n).reverse

/-- Abort message of `Option::unwrap` on `None` (iterator exhaustion inside
the insert loops). -/
def unwrapFailMsg : Str := "called unwrap on None".toList

namespace Grid

/-- Rust `Grid::new(row_size, col_size)`: `col_size * row_size` default cells. -/
def new (row_size col_size : Nat) : Grid :=
  ⟨List.replicate (col_size * row_size) Cell.default, row_size, col_size⟩

/-- Rust `Grid::from(2D data)`: row count from the outer list, column count from
the longest row, short rows padded with default cells.  The `Into<Cell>`
conversions of the source are taken as already applied.  (`from` is a Lean
keyword, hence the name `fromData`.) -/
def fromData (data : List (List Cell)) : Grid :=
  let row_size := data.length
  let col_size := maxOrZero (data.map List.length)
  let cells := data.flatMap (fun row =>
    if row.length < col_size then listResize row col_size Cell.default else row)
  ⟨cells, row_size, col_size⟩

/-- Rust `Grid::set_cells`: every existing slot takes the next item of the
iterator, or the default cell once the iterator is exhausted. -/
def set_cells (g : Grid) (new_cells : List Cell) : Grid :=
  { g with cells := (List.range g.cells.length).map (fun k => new_cells.getD k Cell.default) }

/-- Rust `Grid::set_cell`: bounds-checked write at flat index
`row_index * col_size + col_index`; aborts out of bounds. -/
def set_cell (g : Grid) (row_index col_index : Nat) (cell_data : Cell) : PanicOr Grid :=
  if row_index ≥ g.row_size ∧ col_index ≥ g.col_size then
    .panicked ErrorMessage.ROW_AND_COL_INDEX_OUT_OF_BOUNDS
  else if row_index ≥ g.row_size then
    .panicked ErrorMessage.ROW_INDEX_OUT_OF_BOUNDS
  else if col_index ≥ g.col_size then
    .panicked ErrorMessage.COL_INDEX_OUT_OF_BOUNDS
  else
    .ok { g with cells := g.cells.set (row_index * g.col_size + col_index) cell_data }

/-- Rust `Grid::try_set_cell`: as `set_cell` but reporting the error kind. -/
def try_set_cell (g : Grid) (row_index col_index : Nat) (cell_data : Cell) : GridResult Grid :=
  if row_index ≥ g.row_size ∧ col_index ≥ g.col_size then
    .error .rowAndColIndexOutOfBounds
  else if row_index ≥ g.row_size then
    .error .rowIndexOutOfBounds
  else if col_index ≥ g.col_size then
    .error .colIndexOutOfBounds
  else
    .ok { g with cells := g.cells.set (row_index * g.col_size + col_index) cell_data }

/-- Rust `Grid::get_cell`: `self.cells.get(row_index * self.col_size + col_index)`
— only the flat index is checked against the vector length. -/
def get_cell (g : Grid) (row_index col_index : Nat) : Option Cell :=
  g.cells[row_index * g.col_size + col_index]?

/-- Rust `Grid::get_cell_mut` reads the same flat index as `get_cell`; in the
embedding the looked-up cell is returned. -/
def get_cell_mut (g : Grid) (row_index col_index : Nat) : Option Cell :=
  g.cells[row_index * g.col_size + col_index]?

/-- Rust `Grid::clear`: no cells, both dimensions zero. -/
def clear (_ : Grid) : Grid := ⟨[], 0, 0⟩

/-- Rust `Grid::resize(new_row_size, new_col_size)`: a fresh default vector of the
new size, with the overlapping rectangle moved over cell by cell.  Every
source slot is read once, so reading from the original vector models
`std::mem::take` on the discarded old vector. -/
def resize (g : Grid) (new_row_size new_col_size : Nat) : Grid :=
  ⟨(List.range (min g.row_size new_row_size)).foldl (fun acc row_index =>
      (List.range (min g.col_size new_col_size)).foldl (fun acc2 col_index =>
        acc2.set (row_index * new_col_size + col_index)
          (g.cells.getD (row_index * g.col_size + col_index) Cell.default)) acc)
      (List.replicate (new_row_size * new_col_size) Cell.default),
    new_row_size, new_col_size⟩

/-- Rust `Grid::set_row`: the row's slots (flat indices `row_index*col_size + k`,
yielded by `row_iter_mut`) each take the next iterator item or the default
cell; aborts when the row index is out of bounds. -/
def set_row (g : Grid) (row_index : Nat) (new_row : List Cell) : PanicOr Grid :=
  if row_index ≥ g.row_size then
    .panicked ErrorMessage.ROW_INDEX_OUT_OF_BOUNDS
  else
    .ok { g with cells := (List.range g.col_size).foldl (fun acc k =>
      acc.set (row_index * g.col_size + k) (new_row.getD k Cell.default)) g.cells }

/-- Rust `Grid::try_set_row`. -/
def try_set_row (g : Grid) (row_index : Nat) (new_row : List Cell) : GridResult Grid :=
  if row_index ≥ g.row_size then
    .error .rowIndexOutOfBounds
  else
    .ok { g with cells := (List.range g.col_size).foldl (fun acc k =>
      acc.set (row_index * g.col_size + k) (new_row.getD k Cell.default)) g.cells }

/-- Rust `Grid::set_col`: the column's slots (flat indices `col_index + t*col_size`
for `t < row_size`, yielded by `col_iter_mut` under the length invariant)
each take the next iterator item or the default cell; aborts when the column
index is out of bounds. -/
def set_col (g : Grid) (col_index : Nat) (new_column : List Cell) : PanicOr Grid :=
  if col_index ≥ g.col_size then
    .panicked ErrorMessage.COL_INDEX_OUT_OF_BOUNDS
  else
    .ok { g with cells := (List.range g.row_size).foldl (fun acc t =>
      acc.set (col_index + t * g.col_size) (new_column.getD t Cell.default)) g.cells }

/-- Rust `Grid::try_set_col`. -/
def try_set_col (g : Grid) (col_index : Nat) (new_column : List Cell) : GridResult Grid :=
  if col_index ≥ g.col_size then
    .error .colIndexOutOfBounds
  else
    .ok { g with cells := (List.range g.row_size).foldl (fun acc t =>
      acc.set (col_index + t * g.col_size) (new_column.getD t Cell.default)) g.cells }

end Grid

/-- Inner loop of `Grid::insert_row` for one column `ci`: walk the new row
indices downwards; at `row_index` insert the value popped from the back of
`new_row` (breaking out once `new_row` is empty), otherwise move the cell
from the next old row index produced by `rows_iter`. -/
def insRowInner (col_size row_index ci : Nat) :
    List Nat → List Nat → List Cell → List Cell → PanicOr (List Cell × List Cell)
  | [], _, cells, new_row => .ok (cells, new_row)
  | ri :: ris, old_ris, cells, new_row =>
    if ri = row_index then
      let v := new_row.getLast?.getD Cell.default
      let new_row' := new_row.dropLast
      let cells' := cells.set (ri * col_size + ci) v
      if new_row'.isEmpty then .ok (cells', new_row')
      else insRowInner col_size row_index ci ris old_ris cells' new_row'
    else
      match old_ris with
      | [] => .panicked unwrapFailMsg
      | old_ri :: old_rest =>
        let v := cells.getD (old_ri * col_size + ci) Cell.default
        let cells' := (cells.set (old_ri * col_size + ci) Cell.default).set (ri * col_size + ci) v
        insRowInner col_size row_index ci ris old_rest cells' new_row

/-- Outer loop of `Grid::insert_row`: columns walked downwards, each running
the inner loop over all new row indices with a fresh `rows_iter`. -/
def insRowOuter (col_size row_index old_row_size new_row_size : Nat) :
    List Nat → List Cell → List Cell → PanicOr (List Cell)
  | [], cells, _ => .ok cells
  | ci :: cis, cells, new_row =>
    match insRowInner col_size row_index ci (revRange new_row_size) (revRange old_row_size) cells new_row with
    | .panicked m => .panicked m
    | .ok (cells', new_row') =>
      insRowOuter col_size row_index old_row_size new_row_size cis cells' new_row'

namespace Grid

/-- Rust `Grid::insert_row(row_index, new_row)`: aborts when
`row_index > row_size`; pads or truncates the new row to `col_size`, grows
the flat vector by one row and shifts rows at or after `row_index` down. -/
def insert_row (g : Grid) (row_index : Nat) (new_row : List Cell) : PanicOr Grid :=
  if row_index > g.row_size then .panicked ErrorMessage.ROW_INDEX_OUT_OF_BOUNDS
  else
    let new_row := listResize new_row g.col_size Cell.default
    let old_row_size := g.row_size
    let new_row_size := g.row_size + 1
    let new_size := new_row_size * g.col_size
    let cells := listResize g.cells new_size Cell.default
    match insRowOuter g.col_size row_index old_row_size new_row_size (revRange g.col_size) cells new_row with
    | .panicked m => .panicked m
    | .ok cells' => .ok ⟨cells', new_row_size, g.col_size⟩

/-- Rust `Grid::try_insert_row`: reports `row_index > row_size`, otherwise
delegates to `insert_row`. -/
def try_insert_row (g : Grid) (row_index : Nat) (new_row : List Cell) :
    PanicOr (GridResult Grid) :=
  if row_index > g.row_size then .ok (.error .rowIndexOutOfBounds)
  else
    match g.insert_row row_index new_row with
    | .panicked m => .panicked m
    | .ok g' => .ok (.ok g')

end Grid

/-- Inner loop of `Grid::insert_col` for one row `ri`: walk the new column
indices downwards; at `col_index` insert the value popped from the back of
`new_column` (breaking out once it is empty), otherwise move the cell from
the next old column index produced by `cols_iter`. -/
def insColInner (old_col_size new_col_size col_index ri : Nat) :
    List Nat → List Nat → List Cell → List Cell → PanicOr (List Cell × List Cell)
  | [], _, cells, new_column => .ok (cells, new_column)
  | ci :: cis, old_cis, cells, new_column =>
    if ci = col_index then
      let v := new_column.getLast?.getD Cell.default
      let new_column' := new_column.dropLast
      let cells' := cells.set (ri * new_col_size + ci) v
      if new_column'.isEmpty then .ok (cells', new_column')
      else insColInner old_col_size new_col_size col_index ri cis old_cis cells' new_column'
    else
      match old_cis with
      | [] => .panicked unwrapFailMsg
      | old_ci :: old_rest =>
        let v := cells.getD (ri * old_col_size + old_ci) Cell.default
        let cells' := (cells.set (ri * old_col_size + old_ci) Cell.default).set (ri * new_col_size + ci) v
        insColInner old_col_size new_col_size col_index ri cis old_rest cells' new_column

/-- Outer loop of `Grid::insert_col`: rows walked downwards, each running the
inner loop over all new column indices with a fresh `cols_iter`. -/
def insColOuter (old_col_size new_col_size col_index : Nat) :
    List Nat → List Cell → List Cell → PanicOr (List Cell)
  | [], cells, _ => .ok cells
  | ri :: ris, cells, new_column =>
    match insColInner old_col_size new_col_size col_index ri (revRange new_col_size) (revRange old_col_size) cells new_column with
    | .panicked m => .panicked m
    | .ok (cells', new_column') =>
      insColOuter old_col_size new_col_size col_index ris cells' new_column'

namespace Grid

/-- Rust `Grid::insert_col(col_index, new_column)`: aborts when
`col_index ≥ col_size` (so inserting at `col_size`, an append, aborts); pads
or truncates the new column to `row_size`, grows the flat vector by one
column and shifts columns at or after `col_index` right. -/
def insert_col (g : Grid) (col_index : Nat) (new_column : List Cell) : PanicOr Grid :=
  if col_index ≥ g.col_size then .panicked ErrorMessage.COL_INDEX_OUT_OF_BOUNDS
  else
    let new_column := listResize new_column g.row_size Cell.default
    let old_col_size := g.col_size
    let new_col_size := g.col_size + 1
    let new_size := g.row_size * new_col_size
    let cells := listResize g.cells new_size Cell.default
    match insColOuter old_col_size new_col_size col_index (revRange g.row_size) cells new_column with
    | .panicked m => .panicked m
    | .ok cells' => .ok ⟨cells', g.row_size, new_col_size⟩

/-- Rust `Grid::try_insert_col`: reports `col_index > col_size`, otherwise
delegates to `insert_col` (which itself aborts at `col_index = col_size`). -/
def try_insert_col (g : Grid) (col_index : Nat) (new_column : List Cell) :
    PanicOr (GridResult Grid) :=
  if col_index > g.col_size then .ok (.error .colIndexOutOfBounds)
  else
    match g.insert_col col_index new_column with
    | .panicked m => .panicked m
    | .ok g' => .ok (.ok g')

/-! The `Display` implementation: the fallible formatter writes are pure
here, so the output is the list of written lines. -/

/-- Per-row height pass of `impl Display for Grid`: the maximum cell height
over each row (`get_cell(..).unwrap_or(&default).height()`). -/
def row_heights (g : Grid) : List Nat :=
  (List.range g.row_size).map (fun row_index =>
    maxOrZero ((List.range g.col_size).map (fun col_index =>
      ((g.get_cell row_index col_index).getD Cell.default).height)))

/-- Per-column width pass of `impl Display for Grid`. -/
def col_widths (g : Grid) : List Nat :=
  (List.range g.col_size).map (fun col_index =>
    maxOrZero ((List.range g.row_size).map (fun row_index =>
      ((g.get_cell row_index col_index).getD Cell.default).width)))

/-- The content lines emitted for row `row_index`: each cell is rendered to
the row height and its column width; line `k` of the row joins the `k`-th
entry popped from every column's buffer (columns with an exhausted buffer
are skipped, as with `filter_map` + `pop_front`). -/
def rowContentLines (g : Grid) (rh cw : List Nat) (row_index : Nat) : List Str :=
  let buffers := (List.range g.col_size).map (fun col_index =>
    match g.get_cell row_index col_index with
    | some cell => cell.render_lines (rh.getD row_index 0) (cw.getD col_index 0)
    | none => [])
  (List.range (rh.getD row_index 0)).map (fun k =>
    Border.render_row_lines (buffers.filterMap (fun buffer => buffer[k]?)))

/-- Rust `impl Display for Grid`, as the list of output lines: top border, then
for each row its content lines followed by a middle border (except after the
last row), then the bottom border. -/
def displayLines (g : Grid) : List Str :=
  let rh := g.row_heights
  let cw := g.col_widths
  [Border.render_top_border cw]
    ++ (List.range g.row_size).flatMap (fun row_index =>
        g.rowContentLines rh cw row_index
          ++ if row_index < g.row_size - 1 then [Border.render_mid_border cw] else [])
    ++ [Border.render_bot_border cw]

end Grid

/-- The structural invariant of §3: the flat cell vector has exactly
`row_size * col_size` entries. -/
def Grid.inv (g : Grid) : Prop := g.cells.length = g.row_size * g.col_size

instance (g : Grid) : Decidable g.inv := by
  unfold Grid.inv
  infer_instance

/-! ### Generic helper lemmas about lists and row-major indices -/

theorem getD_eq (l : List α) (n : Nat) (d : α) : l.getD n d = (l[n]?).getD d :=
  List.getD_eq_getElem?_getD l n d

theorem getD_set_same {l : List α} {n : Nat} (h : n < l.length) (a d : α) :
    (l.set n a).getD n d = a := by
  rw [getD_eq, List.getElem?_set_eq_of_lt a h]; rfl

theorem getD_set_other {l : List α} {i j : Nat} (h : i ≠ j) (a d : α) :
    (l.set i a).getD j d = l.getD j d := by
  rw [getD_eq, List.getElem?_set_ne h, getD_eq]

theorem set_getD_self (l : List α) (n : Nat) (d : α) : l.set n (l.getD n d) = l := by
  induction l generalizing n with
  | nil => rfl
  | cons a t ih =>
    cases n with
    | zero => rfl
    | succ m =>
      have : (a :: t).getD (m + 1) d = t.getD m d := by
        rw [getD_eq, getD_eq, List.getElem?_cons_succ]
      rw [this, List.set_cons_succ, ih]

theorem length_listResize (l : List α) (n : Nat) (d : α) : (listResize l n d).length = n := by
  unfold listResize
  by_cases h : l.length ≤ n
  · simp only [h, if_true, List.length_append, List.length_replicate]; omega
  · simp only [h, if_false, List.length_take]; omega

theorem listResize_of_le {l : List α} {n : Nat} (h : l.length ≤ n) (d : α) :
    listResize l n d = l ++ List.replicate (n - l.length) d := by
  simp [listResize, h]

theorem getD_listResize_lt {l : List α} {n j : Nat} (hl : l.length ≤ n) (hj : j < l.length)
    (d : α) : (listResize l n d).getD j d = l.getD j d := by
  rw [listResize_of_le hl, getD_eq, List.getElem?_append, getD_eq]
  simp [hj]

theorem getD_listResize_pad {l : List α} {n j : Nat} (hl : l.length ≤ j) (hj : j < n)
    (d : α) : (listResize l n d).getD j d = d := by
  have hln : l.length ≤ n := Nat.le_trans hl (Nat.le_of_lt hj)
  rw [listResize_of_le hln, getD_eq, List.getElem?_append]
  have : ¬ j < l.length := Nat.not_lt.mpr hl
  simp only [this, if_false]
  rw [List.getElem?_replicate]
  have : j - l.length < n - l.length := by omega
  simp [this]

theorem revRange_succ (n : Nat) : revRange (n + 1) = n :: revRange n := by
  simp [revRange, List.range_succ]

theorem getLast_take_succ {l : List α} {k : Nat} (h : k < l.length) (d : α) :
    ((l.take (k + 1)).getLast?).getD d = l.getD k d := by
  rw [List.getLast?_eq_getElem?]
  have hlen : (l.take (k + 1)).length = k + 1 := by
    simp [List.length_take]; omega
  rw [hlen]
  simp only [Nat.add_sub_cancel]
  rw [List.getElem?_take]
  simp [Nat.lt_succ_self, getD_eq]

theorem dropLast_take_succ {l : List α} {k : Nat} (h : k < l.length) :
    (l.take (k + 1)).dropLast = l.take k := by
  rw [List.dropLast_eq_take]
  have hlen : (l.take (k + 1)).length = k + 1 := by
    simp [List.length_take]; omega
  rw [hlen]
  simp only [Nat.add_sub_cancel]
  rw [List.take_take]
  simp [Nat.min_def, Nat.le_succ]

theorem flatIdx_div {r c C : Nat} (h : c < C) : (r * C + c) / C = r := by
  rw [Nat.add_comm, Nat.mul_comm, Nat.add_mul_div_left _ _ (by omega : 0 < C)]
  simp [Nat.div_eq_of_lt h]

theorem flatIdx_inj {r c r' c' C : Nat} (hc : c < C) (hc' : c' < C)
    (h : r * C + c = r' * C + c') : r = r' ∧ c = c' := by
  have h1 : r = r' := by
    have e1 := flatIdx_div (r := r) hc
    have e2 := flatIdx_div (r := r') hc'
    rw [h] at e1; omega
  refine ⟨h1, ?_⟩
  subst h1; omega

theorem flatIdx_lt {r c R C : Nat} (hr : r < R) (hc : c < C) : r * C + c < R * C := by
  have : r * C + c < (r + 1) * C := by simp [Nat.succ_mul]; omega
  have h2 : (r + 1) * C ≤ R * C := Nat.mul_le_mul_right C hr
  omega

theorem le_maxOrZero {l : List Nat} {x : Nat} (h : x ∈ l) : x ≤ maxOrZero l := by
  induction l with
  | nil => cases h
  | cons a t ih =>
    rcases List.mem_cons.mp h with h1 | h2
    · subst h1; exact Nat.le_max_left _ _
    · exact Nat.le_trans (ih h2) (Nat.le_max_right _ _)

/-! ### Loop lemmas for `Grid::insert_row` -/

theorem insRowInner_below (C i ci : Nat) :
    ∀ m, m ≤ i → ∀ (cells new_row : List Cell),
      insRowInner C i ci (revRange m) (revRange m) cells new_row = .ok (cells, new_row) := by
  intro m
  induction m with
  | zero => intro _ cells new_row; rfl
  | succ m ih =>
    intro hm cells new_row
    rw [revRange_succ]
    have hne : m ≠ i := by omega
    simp only [insRowInner, hne, if_false]
    rw [List.set_set, set_getD_self]
    exact ih (by omega) cells new_row

theorem insRowInner_nil (C i ci : Nat) (old_ris : List Nat) (cells new_row : List Cell) :
    insRowInner C i ci [] old_ris cells new_row = .ok (cells, new_row) := rfl

theorem insRowInner_cons_insert (C i ci : Nat) (ris old_ris : List Nat)
    (cells new_row : List Cell) :
    insRowInner C i ci (i :: ris) old_ris cells new_row =
      if (new_row.dropLast).isEmpty = true then
        .ok (cells.set (i * C + ci) (new_row.getLast?.getD Cell.default), new_row.dropLast)
      else insRowInner C i ci ris old_ris
        (cells.set (i * C + ci) (new_row.getLast?.getD Cell.default)) new_row.dropLast := by
  simp only [insRowInner, eq_self_iff_true, if_true]

theorem insRowInner_cons_move (C i ci ri : Nat) (hne : ri ≠ i) (ris : List Nat)
    (old_ri : Nat) (old_rest : List Nat) (cells new_row : List Cell) :
    insRowInner C i ci (ri :: ris) (old_ri :: old_rest) cells new_row =
      insRowInner C i ci ris old_rest
        ((cells.set (old_ri * C + ci) Cell.default).set (ri * C + ci)
          (cells.getD (old_ri * C + ci) Cell.default)) new_row := by
  simp only [insRowInner, if_neg hne]

theorem insRowInner_spec (C i ci : Nat) (hci : ci < C) :
    ∀ k, i ≤ k →
    ∀ (cells new_row : List Cell), new_row ≠ [] →
    ∃ F, insRowInner C i ci (revRange (k + 1)) (revRange k) cells new_row
          = .ok (F, new_row.dropLast)
      ∧ F.length = cells.length
      ∧ ∀ r c, c < C → r * C + c < cells.length →
          F.getD (r * C + c) Cell.default =
            if c = ci ∧ i ≤ r ∧ r ≤ k then
              (if r = i then new_row.getLast?.getD Cell.default
               else cells.getD ((r - 1) * C + c) Cell.default)
            else cells.getD (r * C + c) Cell.default := by
  intro k
  induction k with
  | zero =>
    intro hi cells new_row hne
    have hi0 : i = 0 := by omega
    subst hi0
    refine ⟨cells.set (0 * C + ci) (new_row.getLast?.getD Cell.default), ?_, ?_, ?_⟩
    · rw [show revRange 1 = 0 :: revRange 0 from revRange_succ 0,
          insRowInner_cons_insert, show revRange 0 = [] from rfl,
          insRowInner_nil, ite_self]
    · simp
    · intro r c hc hj
      by_cases hrc : r = 0 ∧ c = ci
      · obtain ⟨hr, hcc⟩ := hrc
        subst hr; subst hcc
        rw [getD_set_same hj]
        simp
      · have hne2 : 0 * C + ci ≠ r * C + c := by
          intro he
          exact hrc ⟨(flatIdx_inj hci hc he).1.symm, (flatIdx_inj hci hc he).2.symm⟩
        rw [getD_set_other hne2]
        have hcond : ¬ (c = ci ∧ 0 ≤ r ∧ r ≤ 0) := by
          intro h
          exact hrc ⟨by omega, h.1⟩
        rw [if_neg hcond]
  | succ k ih =>
    intro hi cells new_row hne
    by_cases hik : k + 1 = i
    · subst hik
      refine ⟨cells.set ((k+1) * C + ci) (new_row.getLast?.getD Cell.default), ?_, ?_, ?_⟩
      · rw [show revRange (k+2) = (k+1) :: revRange (k+1) from revRange_succ (k+1),
            insRowInner_cons_insert,
            insRowInner_below C (k+1) ci (k+1) (Nat.le_refl _), ite_self]
      · simp
      · intro r c hc hj
        by_cases hrc : r = k + 1 ∧ c = ci
        · obtain ⟨hr, hcc⟩ := hrc
          subst hr; subst hcc
          rw [getD_set_same hj]
          have hcond : c = c ∧ k + 1 ≤ k + 1 ∧ k + 1 ≤ k + 1 := ⟨rfl, by omega, by omega⟩
          rw [if_pos hcond, if_pos rfl]
        · have hne2 : (k+1) * C + ci ≠ r * C + c := by
            intro he
            exact hrc ⟨(flatIdx_inj hci hc he).1.symm, (flatIdx_inj hci hc he).2.symm⟩
          rw [getD_set_other hne2]
          have hcond : ¬ (c = ci ∧ k + 1 ≤ r ∧ r ≤ k + 1) := by
            intro h
            exact hrc ⟨by omega, h.1⟩
          rw [if_neg hcond]
    · have hik2 : i ≤ k := by omega
      obtain ⟨F, heq, hlen, hpt⟩ := ih hik2
        ((cells.set (k * C + ci) Cell.default).set ((k+1) * C + ci)
          (cells.getD (k * C + ci) Cell.default)) new_row hne
      have hlen1 : ((cells.set (k * C + ci) Cell.default).set ((k+1) * C + ci)
          (cells.getD (k * C + ci) Cell.default)).length = cells.length := by simp
      refine ⟨F, ?_, by omega, ?_⟩
      · rw [show revRange (k+2) = (k+1) :: revRange (k+1) from revRange_succ (k+1)]
        rw [revRange_succ k]
        rw [insRowInner_cons_move C i ci (k+1) hik (k :: revRange k) k (revRange k) cells new_row]
        rw [← revRange_succ k]
        exact heq
      · intro r c hc hj
        have hj1 : r * C + c < ((cells.set (k * C + ci) Cell.default).set ((k+1) * C + ci)
            (cells.getD (k * C + ci) Cell.default)).length := by omega
        have h := hpt r c hc hj1
        by_cases hG : c = ci ∧ i ≤ r ∧ r ≤ k + 1
        · obtain ⟨hcc, hir, hrk⟩ := hG
          by_cases hri : r = i
          · rw [h, if_pos ⟨hcc, hir, by omega⟩, if_pos hri,
               if_pos (⟨hcc, hir, hrk⟩ : c = ci ∧ i ≤ r ∧ r ≤ k + 1), if_pos hri]
          · by_cases hrk2 : r ≤ k
            · rw [h, if_pos ⟨hcc, hir, hrk2⟩, if_neg hri]
              have hne3 : (k+1) * C + ci ≠ (r-1) * C + c := by
                intro he
                have := (flatIdx_inj hci hc he).1
                omega
              have hne4 : k * C + ci ≠ (r-1) * C + c := by
                intro he
                have := (flatIdx_inj hci hc he).1
                omega
              rw [getD_set_other hne3, getD_set_other hne4,
                 if_pos (⟨hcc, hir, hrk⟩ : c = ci ∧ i ≤ r ∧ r ≤ k + 1), if_neg hri]
            · have hre : r = k + 1 := by omega
              have hck : ¬ (c = ci ∧ i ≤ r ∧ r ≤ k) := by
                intro hx
                exact hrk2 hx.2.2
              rw [h, if_neg hck]
              subst hre; subst hcc
              have hBlt : (k+1) * C + c < (cells.set (k * C + c) Cell.default).length := by
                simpa using hj
              rw [getD_set_same hBlt]
              rw [if_pos (⟨rfl, hir, by omega⟩ : c = c ∧ i ≤ k + 1 ∧ k + 1 ≤ k + 1), if_neg hri]
              have hk1 : (k + 1) - 1 = k := by omega
              rw [hk1]
        · have hck : ¬ (c = ci ∧ i ≤ r ∧ r ≤ k) := by
            intro hx
            exact hG ⟨hx.1, hx.2.1, by omega⟩
          rw [h, if_neg hck]
          have hne3 : (k+1) * C + ci ≠ r * C + c := by
            intro he
            obtain ⟨h1, h2⟩ := flatIdx_inj hci hc he
            exact hG ⟨h2.symm, by omega, by omega⟩
          have hne4 : k * C + ci ≠ r * C + c := by
            intro he
            obtain ⟨h1, h2⟩ := flatIdx_inj hci hc he
            refine hG ⟨h2.symm, by omega, by omega⟩
          rw [getD_set_other hne3, getD_set_other hne4, if_neg hG]

theorem row_le_of_flatIdx {r c R C : Nat} (_hc : c < C) (hj : r * C + c < (R + 1) * C) :
    r ≤ R := by
  by_contra h
  push_neg at h
  have : (R + 1) * C ≤ r * C := Nat.mul_le_mul_right C h
  omega

theorem insRowOuter_nil (C i oldR newR : Nat) (cells new_row : List Cell) :
    insRowOuter C i oldR newR [] cells new_row = .ok cells := rfl

theorem insRowOuter_cons_ok {C i oldR newR ci : Nat} {cis : List Nat}
    {cells new_row F nr' : List Cell}
    (h : insRowInner C i ci (revRange newR) (revRange oldR) cells new_row = .ok (F, nr')) :
    insRowOuter C i oldR newR (ci :: cis) cells new_row
      = insRowOuter C i oldR newR cis F nr' := by
  simp only [insRowOuter, h]

theorem insRowOuter_spec (C R i : Nat) (hiR : i ≤ R) :
    ∀ k, k ≤ C →
    ∀ (cells padded : List Cell), cells.length = (R + 1) * C → padded.length = C →
    ∃ G, insRowOuter C i R (R + 1) (revRange k) cells (padded.take k) = .ok G
      ∧ G.length = cells.length
      ∧ ∀ r c, c < C → r * C + c < cells.length →
          G.getD (r * C + c) Cell.default =
            if c < k ∧ i ≤ r then
              (if r = i then padded.getD c Cell.default
               else cells.getD ((r - 1) * C + c) Cell.default)
            else cells.getD (r * C + c) Cell.default := by
  intro k
  induction k with
  | zero =>
    intro _ cells padded hcl hpl
    refine ⟨cells, insRowOuter_nil .., rfl, ?_⟩
    intro r c _hc hj
    have hcond : ¬ (c < 0 ∧ i ≤ r) := by
      intro hx
      omega
    rw [if_neg hcond]
  | succ k ih =>
    intro hk cells padded hcl hpl
    have hkC : k < C := by omega
    have hlenTake : (padded.take (k + 1)).length = k + 1 := by
      rw [List.length_take]
      omega
    have hne : padded.take (k + 1) ≠ [] := by
      intro he
      rw [he] at hlenTake
      simp at hlenTake
    obtain ⟨F, heqI, hlenI, hptI⟩ := insRowInner_spec C i k hkC R hiR cells (padded.take (k + 1)) hne
    have hkP : k < padded.length := by omega
    rw [dropLast_take_succ hkP] at heqI
    obtain ⟨G, heqO, hlenO, hptO⟩ := ih (by omega) F padded (by omega) hpl
    refine ⟨G, ?_, by omega, ?_⟩
    · rw [revRange_succ k, insRowOuter_cons_ok heqI]
      exact heqO
    · intro r c hc hj
      have hrR : r ≤ R := row_le_of_flatIdx hc (by omega)
      have hjF : r * C + c < F.length := by omega
      have h := hptO r c hc hjF
      have hglast : ((padded.take (k + 1)).getLast?).getD Cell.default = padded.getD k Cell.default :=
        getLast_take_succ hkP Cell.default
      by_cases hA : c < k ∧ i ≤ r
      · obtain ⟨hck, hir⟩ := hA
        rw [h, if_pos ⟨hck, hir⟩]
        by_cases hri : r = i
        · rw [if_pos hri, if_pos (⟨by omega, hir⟩ : c < k + 1 ∧ i ≤ r), if_pos hri]
        · rw [if_neg hri]
          have hjF2 : (r - 1) * C + c < cells.length := by
            have : r - 1 < R + 1 := by omega
            have := flatIdx_lt this hc
            omega
          have h2 := hptI (r - 1) c hc hjF2
          have hcond2 : ¬ (c = k ∧ i ≤ r - 1 ∧ r - 1 ≤ R) := by
            intro hx
            omega
          rw [h2, if_neg hcond2, if_pos (⟨by omega, hir⟩ : c < k + 1 ∧ i ≤ r), if_neg hri]
      · rw [h, if_neg hA]
        have h2 := hptI r c hc (by omega)
        by_cases hB : c = k ∧ i ≤ r
        · obtain ⟨hck, hir⟩ := hB
          rw [h2, if_pos ⟨hck, hir, hrR⟩]
          by_cases hri : r = i
          · rw [if_pos hri, hglast, hck,
               if_pos (⟨Nat.lt_succ_self k, hir⟩ : k < k + 1 ∧ i ≤ r), if_pos hri]
          · rw [if_neg hri, if_pos (⟨by omega, hir⟩ : c < k + 1 ∧ i ≤ r), if_neg hri]
        · have hcond2 : ¬ (c = k ∧ i ≤ r ∧ r ≤ R) := by
            intro hx
            exact hB ⟨hx.1, hx.2.1⟩
          rw [h2, if_neg hcond2]
          have hcond3 : ¬ (c < k + 1 ∧ i ≤ r) := by
            intro hx
            rcases Nat.lt_succ_iff_lt_or_eq.mp hx.1 with hlt | heq2
            · exact hA ⟨hlt, hx.2⟩
            · exact hB ⟨heq2, hx.2⟩
          rw [if_neg hcond3]

theorem insert_row_spec (g : Grid) (i : Nat) (data : List Cell)
    (hInv : g.inv) (hi : i ≤ g.row_size) :
    ∃ g', g.insert_row i data = .ok g'
      ∧ g'.row_size = g.row_size + 1
      ∧ g'.col_size = g.col_size
      ∧ g'.cells.length = (g.row_size + 1) * g.col_size
      ∧ ∀ r c, c < g.col_size → r ≤ g.row_size →
          g'.cells.getD (r * g.col_size + c) Cell.default =
            if i ≤ r then
              (if r = i then (listResize data g.col_size Cell.default).getD c Cell.default
               else g.cells.getD ((r - 1) * g.col_size + c) Cell.default)
            else g.cells.getD (r * g.col_size + c) Cell.default := by
  have hInv' : g.cells.length = g.row_size * g.col_size := hInv
  have hguard : ¬ (i > g.row_size) := by omega
  have hpadL : (listResize data g.col_size Cell.default).length = g.col_size :=
    length_listResize ..
  have hinitL : (listResize g.cells ((g.row_size + 1) * g.col_size) Cell.default).length
      = (g.row_size + 1) * g.col_size := length_listResize ..
  obtain ⟨G, heqO, hlenO, hptO⟩ :=
    insRowOuter_spec g.col_size g.row_size i hi g.col_size (Nat.le_refl _)
      (listResize g.cells ((g.row_size + 1) * g.col_size) Cell.default)
      (listResize data g.col_size Cell.default) hinitL hpadL
  have htake : (listResize data g.col_size Cell.default).take g.col_size
      = listResize data g.col_size Cell.default := by
    exact List.take_of_length_le (Nat.le_of_eq hpadL)
  rw [htake] at heqO
  refine ⟨⟨G, g.row_size + 1, g.col_size⟩, ?_, rfl, rfl, by show G.length = _; omega, ?_⟩
  · show g.insert_row i data = _
    unfold Grid.insert_row
    rw [if_neg hguard]
    simp only [heqO]
  · intro r c hc hr
    have hjInit : r * g.col_size + c
        < (listResize g.cells ((g.row_size + 1) * g.col_size) Cell.default).length := by
      rw [hinitL]
      exact flatIdx_lt (by omega) hc
    have h := hptO r c hc hjInit
    have hcellsLe : g.cells.length ≤ (g.row_size + 1) * g.col_size := by
      rw [hInv']
      exact Nat.mul_le_mul_right _ (by omega)
    by_cases hir : i ≤ r
    · rw [h, if_pos ⟨hc, hir⟩]
      show _ = if i ≤ r then _ else _
      rw [if_pos hir]
      by_cases hri : r = i
      · rw [if_pos hri, if_pos hri]
      · rw [if_neg hri, if_neg hri]
        have hr1 : r - 1 < g.row_size := by omega
        have hjlt : (r - 1) * g.col_size + c < g.cells.length := by
          rw [hInv']
          exact flatIdx_lt hr1 hc
        exact getD_listResize_lt hcellsLe hjlt Cell.default
    · rw [h, if_neg (fun hx => hir hx.2)]
      show _ = if i ≤ r then _ else _
      rw [if_neg hir]
      have hrlt : r < g.row_size := by omega
      have hjlt : r * g.col_size + c < g.cells.length := by
        rw [hInv']
        exact flatIdx_lt hrlt hc
      exact getD_listResize_lt hcellsLe hjlt Cell.default

/-! ### Loop lemmas for `Grid::insert_col` (termination and length only) -/

theorem insColInner_nil (oc nc j ri : Nat) (old_cis : List Nat) (cells new_column : List Cell) :
    insColInner oc nc j ri [] old_cis cells new_column = .ok (cells, new_column) := rfl

theorem insColInner_cons_insert (oc nc j ri : Nat) (cis old_cis : List Nat)
    (cells new_column : List Cell) :
    insColInner oc nc j ri (j :: cis) old_cis cells new_column =
      if (new_column.dropLast).isEmpty = true then
        .ok (cells.set (ri * nc + j) (new_column.getLast?.getD Cell.default), new_column.dropLast)
      else insColInner oc nc j ri cis old_cis
        (cells.set (ri * nc + j) (new_column.getLast?.getD Cell.default)) new_column.dropLast := by
  simp only [insColInner, eq_self_iff_true, if_true]

theorem insColInner_cons_move (oc nc j ri ci : Nat) (hne : ci ≠ j) (cis : List Nat)
    (old_ci : Nat) (old_rest : List Nat) (cells new_column : List Cell) :
    insColInner oc nc j ri (ci :: cis) (old_ci :: old_rest) cells new_column =
      insColInner oc nc j ri cis old_rest
        ((cells.set (ri * oc + old_ci) Cell.default).set (ri * nc + ci)
          (cells.getD (ri * oc + old_ci) Cell.default)) new_column := by
  simp only [insColInner, if_neg hne]

theorem insColInner_below (oc nc j ri : Nat) :
    ∀ m, m ≤ j → ∀ (cells new_column : List Cell),
    ∃ F, insColInner oc nc j ri (revRange m) (revRange m) cells new_column
          = .ok (F, new_column)
      ∧ F.length = cells.length := by
  intro m
  induction m with
  | zero => intro _ cells new_column; exact ⟨cells, rfl, rfl⟩
  | succ m ih =>
    intro hm cells new_column
    have hne : m ≠ j := by omega
    obtain ⟨F, heq, hlen⟩ := ih (by omega)
      ((cells.set (ri * oc + m) Cell.default).set (ri * nc + m)
        (cells.getD (ri * oc + m) Cell.default)) new_column
    refine ⟨F, ?_, by simpa using hlen⟩
    rw [revRange_succ m, insColInner_cons_move oc nc j ri m hne (revRange m) m (revRange m)]
    exact heq

theorem insColInner_spec (oc nc j ri : Nat) :
    ∀ m, j ≤ m → ∀ (cells new_column : List Cell), new_column ≠ [] →
    ∃ F, insColInner oc nc j ri (revRange (m + 1)) (revRange m) cells new_column
          = .ok (F, new_column.dropLast)
      ∧ F.length = cells.length := by
  intro m
  induction m with
  | zero =>
    intro hj cells new_column hne
    have hj0 : j = 0 := by omega
    subst hj0
    rw [show revRange 1 = 0 :: revRange 0 from revRange_succ 0,
        insColInner_cons_insert, show revRange 0 = [] from rfl]
    by_cases hemp : (new_column.dropLast).isEmpty = true
    · rw [if_pos hemp]
      exact ⟨_, rfl, by simp⟩
    · rw [if_neg hemp, insColInner_nil]
      exact ⟨_, rfl, by simp⟩
  | succ m ih =>
    intro hj cells new_column hne
    by_cases hjm : j = m + 1
    · subst hjm
      rw [show revRange (m + 2) = (m + 1) :: revRange (m + 1) from revRange_succ (m + 1),
          insColInner_cons_insert]
      by_cases hemp : (new_column.dropLast).isEmpty = true
      · rw [if_pos hemp]
        exact ⟨_, rfl, by simp⟩
      · rw [if_neg hemp]
        obtain ⟨F, heq, hlen⟩ := insColInner_below oc nc (m + 1) ri (m + 1) (Nat.le_refl _)
          (cells.set (ri * nc + (m + 1)) (new_column.getLast?.getD Cell.default))
          new_column.dropLast
        refine ⟨F, heq, by simpa using hlen⟩
    · have hjm2 : j ≤ m := by omega
      obtain ⟨F, heq, hlen⟩ := ih hjm2
        ((cells.set (ri * oc + m) Cell.default).set (ri * nc + (m + 1))
          (cells.getD (ri * oc + m) Cell.default)) new_column hne
      refine ⟨F, ?_, by simpa using hlen⟩
      rw [show revRange (m + 2) = (m + 1) :: revRange (m + 1) from revRange_succ (m + 1)]
      rw [revRange_succ m]
      rw [insColInner_cons_move oc nc j ri (m + 1) (fun he => hjm he.symm) (m :: revRange m) m (revRange m)]
      rw [← revRange_succ m]
      exact heq

theorem insColOuter_nil (oc nc j : Nat) (cells new_column : List Cell) :
    insColOuter oc nc j [] cells new_column = .ok cells := rfl

theorem insColOuter_cons_ok {oc nc j ri : Nat} {ris : List Nat}
    {cells new_column F nc' : List Cell}
    (h : insColInner oc nc j ri (revRange nc) (revRange oc) cells new_column = .ok (F, nc')) :
    insColOuter oc nc j (ri :: ris) cells new_column = insColOuter oc nc j ris F nc' := by
  simp only [insColOuter, h]

theorem insColOuter_spec (oc j : Nat) (hj : j ≤ oc) :
    ∀ k (cells new_column : List Cell), new_column.length = k →
    ∃ G, insColOuter oc (oc + 1) j (revRange k) cells new_column = .ok G
      ∧ G.length = cells.length := by
  intro k
  induction k with
  | zero => intro cells new_column _; exact ⟨cells, insColOuter_nil .., rfl⟩
  | succ k ih =>
    intro cells new_column hlen
    have hne : new_column ≠ [] := by
      intro he
      rw [he] at hlen
      simp at hlen
    obtain ⟨F, heqI, hlenI⟩ := insColInner_spec oc (oc + 1) j k oc hj cells new_column hne
    have hdl : new_column.dropLast.length = k := by
      rw [List.length_dropLast, hlen]
      omega
    obtain ⟨G, heqO, hlenO⟩ := ih F new_column.dropLast hdl
    refine ⟨G, ?_, by omega⟩
    rw [revRange_succ k, insColOuter_cons_ok heqI]
    exact heqO

theorem insert_col_spec (g : Grid) (j : Nat) (data : List Cell)
    (hInv : g.inv) (hj : j < g.col_size) :
    ∃ g', g.insert_col j data = .ok g'
      ∧ g'.row_size = g.row_size ∧ g'.col_size = g.col_size + 1 ∧ g'.inv := by
  have hInv' : g.cells.length = g.row_size * g.col_size := hInv
  have hguard : ¬ (j ≥ g.col_size) := by omega
  have hdataL : (listResize data g.row_size Cell.default).length = g.row_size :=
    length_listResize ..
  obtain ⟨G, heqO, hlenO⟩ := insColOuter_spec g.col_size j (by omega) g.row_size
    (listResize g.cells (g.row_size * (g.col_size + 1)) Cell.default)
    (listResize data g.row_size Cell.default) hdataL
  refine ⟨⟨G, g.row_size, g.col_size + 1⟩, ?_, rfl, rfl, ?_⟩
  · show g.insert_col j data = _
    unfold Grid.insert_col
    rw [if_neg hguard]
    simp only [heqO]
  · show G.length = g.row_size * (g.col_size + 1)
    rw [hlenO, length_listResize]

/-! ### Fold lemmas for `Grid::resize` -/

theorem foldl_range_succ (f : β → Nat → β) (b : β) (n : Nat) :
    (List.range (n + 1)).foldl f b = f ((List.range n).foldl f b) n := by
  rw [List.range_succ, List.foldl_append]
  rfl

theorem getD_replicate (n j : Nat) (a : α) : (List.replicate n a).getD j a = a := by
  rw [getD_eq, List.getElem?_replicate]
  by_cases h : j < n
  · simp [h]
  · simp [h]

theorem resize_inner_fold (nc r : Nat) (f : Nat → Cell) :
    ∀ cols, cols ≤ nc → ∀ (acc : List Cell),
      (((List.range cols).foldl (fun a c => a.set (r * nc + c) (f c)) acc).length = acc.length)
      ∧ ∀ r' c', c' < nc → r' * nc + c' < acc.length →
        ((List.range cols).foldl (fun a c => a.set (r * nc + c) (f c)) acc).getD
            (r' * nc + c') Cell.default
          = if r' = r ∧ c' < cols then f c'
            else acc.getD (r' * nc + c') Cell.default := by
  intro cols
  induction cols with
  | zero =>
    intro _ acc
    refine ⟨rfl, ?_⟩
    intro r' c' _ _
    have : ¬ (r' = r ∧ c' < 0) := by
      intro hx
      omega
    rw [if_neg this]
    rfl
  | succ cols ih =>
    intro hcols acc
    obtain ⟨ihl, ihp⟩ := ih (by omega) acc
    rw [foldl_range_succ]
    constructor
    · rw [List.length_set]
      exact ihl
    · intro r' c' hc' hj
      by_cases hrc : r' = r ∧ c' = cols
      · obtain ⟨hr, hcc⟩ := hrc
        have hidx : r' * nc + c' = r * nc + cols := by rw [hr, hcc]
        have hlt : r * nc + cols < ((List.range cols).foldl (fun a c => a.set (r * nc + c) (f c)) acc).length := by
          rw [ihl, ← hidx]
          exact hj
        rw [hidx, getD_set_same hlt, if_pos (⟨hr, by omega⟩ : r' = r ∧ c' < cols + 1), hcc]
      · have hneq : r * nc + cols ≠ r' * nc + c' := by
          intro he
          obtain ⟨h1, h2⟩ := flatIdx_inj (by omega : cols < nc) hc' he
          exact hrc ⟨h1.symm, h2.symm⟩
        rw [getD_set_other hneq, ihp r' c' hc' hj]
        by_cases hcnd : r' = r ∧ c' < cols
        · rw [if_pos hcnd, if_pos ⟨hcnd.1, by omega⟩]
        · rw [if_neg hcnd, if_neg ?_]
          intro hx
          rcases Nat.lt_succ_iff_lt_or_eq.mp hx.2 with hlt | heq2
          · exact hcnd ⟨hx.1, hlt⟩
          · exact hrc ⟨hx.1, heq2⟩

theorem resize_outer_fold (nc cols : Nat) (hcols : cols ≤ nc) (src : Nat → Nat → Cell) :
    ∀ rows, ∀ (acc : List Cell), rows * nc ≤ acc.length →
      (((List.range rows).foldl (fun acc2 rr =>
          (List.range cols).foldl (fun a c => a.set (rr * nc + c) (src rr c)) acc2) acc).length
        = acc.length)
      ∧ ∀ r' c', c' < nc → r' * nc + c' < acc.length →
        ((List.range rows).foldl (fun acc2 rr =>
            (List.range cols).foldl (fun a c => a.set (rr * nc + c) (src rr c)) acc2) acc).getD
            (r' * nc + c') Cell.default
          = if r' < rows ∧ c' < cols then src r' c'
            else acc.getD (r' * nc + c') Cell.default := by
  intro rows
  induction rows with
  | zero =>
    intro acc _
    refine ⟨rfl, ?_⟩
    intro r' c' _ _
    have : ¬ (r' < 0 ∧ c' < cols) := by
      intro hx
      omega
    rw [if_neg this]
    rfl
  | succ rows ih =>
    intro acc hrows
    have hrows' : rows * nc ≤ acc.length := by
      have : rows * nc ≤ (rows + 1) * nc := Nat.mul_le_mul_right nc (by omega)
      omega
    obtain ⟨ihl, ihp⟩ := ih acc hrows'
    obtain ⟨inl, inp⟩ := resize_inner_fold nc rows (fun c => src rows c) cols hcols
      ((List.range rows).foldl (fun acc2 rr =>
        (List.range cols).foldl (fun a c => a.set (rr * nc + c) (src rr c)) acc2) acc)
    rw [foldl_range_succ]
    constructor
    · rw [inl, ihl]
    · intro r' c' hc' hj
      have hjM : r' * nc + c' < ((List.range rows).foldl (fun acc2 rr =>
          (List.range cols).foldl (fun a c => a.set (rr * nc + c) (src rr c)) acc2) acc).length := by
        rw [ihl]
        exact hj
      rw [inp r' c' hc' hjM]
      by_cases hrc : r' = rows ∧ c' < cols
      · rw [if_pos hrc, if_pos ⟨by omega, hrc.2⟩, hrc.1]
      · rw [if_neg hrc, ihp r' c' hc' hj]
        by_cases hcnd : r' < rows ∧ c' < cols
        · rw [if_pos hcnd, if_pos ⟨by omega, hcnd.2⟩]
        · rw [if_neg hcnd, if_neg ?_]
          intro hx
          rcases Nat.lt_succ_iff_lt_or_eq.mp hx.1 with hlt | heq2
          · exact hcnd ⟨hlt, hx.2⟩
          · exact hrc ⟨heq2, hx.2⟩

theorem resize_spec (g : Grid) (nr nc : Nat) :
    (g.resize nr nc).row_size = nr
  ∧ (g.resize nr nc).col_size = nc
  ∧ (g.resize nr nc).cells.length = nr * nc
  ∧ ∀ r c, r < nr → c < nc →
      (g.resize nr nc).cells.getD (r * nc + c) Cell.default =
        if r < g.row_size ∧ c < g.col_size
        then g.cells.getD (r * g.col_size + c) Cell.default
        else Cell.default := by
  have hcols : min g.col_size nc ≤ nc := Nat.min_le_right _ _
  obtain ⟨hl, hp⟩ := resize_outer_fold nc (min g.col_size nc) hcols
    (fun rr c => g.cells.getD (rr * g.col_size + c) Cell.default)
    (min g.row_size nr) (List.replicate (nr * nc) Cell.default)
    (by rw [List.length_replicate]; exact Nat.mul_le_mul_right nc (Nat.min_le_right _ _))
  refine ⟨rfl, rfl, ?_, ?_⟩
  · simp only [Grid.resize]
    rw [hl, List.length_replicate]
  · intro r c hr hc
    have hj : r * nc + c < (List.replicate (nr * nc) Cell.default).length := by
      rw [List.length_replicate]
      exact flatIdx_lt hr hc
    have h := hp r c hc hj
    simp only [Grid.resize]
    rw [h]
    by_cases hcnd : r < g.row_size ∧ c < g.col_size
    · rw [if_pos ⟨by omega, by omega⟩, if_pos hcnd]
    · rw [if_neg ?_, if_neg hcnd, getD_replicate]
      intro hx
      exact hcnd ⟨by omega, by omega⟩

/-! ### Small-operation lemmas for the length invariant -/

theorem foldl_set_length (idx : Nat → Nat) (v : Nat → Cell) :
    ∀ (ks : List Nat) (acc : List Cell),
      (ks.foldl (fun a k => a.set (idx k) (v k)) acc).length = acc.length := by
  intro ks
  induction ks with
  | nil => intro acc; rfl
  | cons k t ih =>
    intro acc
    rw [List.foldl_cons, ih, List.length_set]

theorem sum_map_const_of {l : List α} {f : α → Nat} {c : Nat} (h : ∀ x ∈ l, f x = c) :
    (l.map f).sum = l.length * c := by
  induction l with
  | nil => simp
  | cons a t ih =>
    have ha : f a = c := h a (List.mem_cons_self a t)
    have ht := ih (fun x hx => h x (List.mem_cons_of_mem a hx))
    simp only [List.map_cons, List.sum_cons, ha, ht, List.length_cons]
    ring

theorem fromData_inv (data : List (List Cell)) : (Grid.fromData data).inv := by
  show (Grid.fromData data).cells.length = _
  have hrow : ∀ row ∈ data,
      ((fun row => if row.length < maxOrZero (data.map List.length)
          then listResize row (maxOrZero (data.map List.length)) Cell.default
          else row) row).length = maxOrZero (data.map List.length) := by
    intro row hin
    by_cases hlt : row.length < maxOrZero (data.map List.length)
    · simp only [hlt, if_true]
      exact length_listResize ..
    · simp only [hlt, if_false]
      have hle : row.length ≤ maxOrZero (data.map List.length) :=
        le_maxOrZero (List.mem_map_of_mem List.length hin)
      omega
  show (data.flatMap _).length = _
  rw [List.length_flatMap]
  exact sum_map_const_of hrow

theorem new_inv (r c : Nat) : (Grid.new r c).inv := by
  show (List.replicate (c * r) Cell.default).length = r * c
  rw [List.length_replicate, Nat.mul_comm]

theorem set_cells_inv (g : Grid) (new_cells : List Cell) (h : g.inv) :
    (g.set_cells new_cells).inv := by
  show ((List.range g.cells.length).map _).length = _
  rw [List.length_map, List.length_range]
  exact h

/-! ### Rendering lemmas for undecorated cells -/

theorem apply_ansi_formatting_undecorated (t : Str) :
    apply_ansi_formatting t none none FontStyleFlag.new = t := by
  have hstyles : FontStyleFlag.new.styles = [] := rfl
  simp [apply_ansi_formatting, hstyles]

theorem renderContentLine_self_length (a : AlignH) (tw : Nat) (raw : Str) :
    (Cell.renderContentLine a tw raw.length raw).length = tw := by
  unfold Cell.renderContentLine
  by_cases h1 : raw.length < tw
  · rw [if_pos h1]
    cases a
    · simp only [Cell.padLeftAlign, List.length_append, List.length_replicate]
      omega
    · simp only [Cell.padRightAlign, List.length_append, List.length_replicate]
      omega
    · simp only [Cell.padCenterAlign, List.length_append, List.length_replicate]
      omega
  · rw [if_neg h1]
    by_cases h2 : raw.length = tw
    · rw [if_pos h2]
      exact h2
    · rw [if_neg h2, List.length_take]
      omega

theorem render_lines_undecorated_shape (c : Cell) (hfg : c.fg_color = none)
    (hbg : c.bg_color = none) (hfs : c.font_style = FontStyleFlag.new) (th tw : Nat) :
    ∃ nb na, c.render_lines th tw
        = List.replicate nb (List.replicate tw ' ')
          ++ (rustLines c.data).map
              (fun raw => Cell.renderContentLine (c.h_align.getD .left) tw raw.length raw)
          ++ List.replicate na (List.replicate tw ' ')
      ∧ nb + na = th - (rustLines c.data).length := by
  unfold Cell.render_lines
  rw [hfg, hbg, hfs]
  have hmap : (rustLines c.data).map
        (fun raw => Cell.renderContentLine (c.h_align.getD .left) tw raw.length
          (apply_ansi_formatting raw none none FontStyleFlag.new))
      = (rustLines c.data).map
        (fun raw => Cell.renderContentLine (c.h_align.getD .left) tw raw.length raw) :=
    List.map_congr_left (fun raw _ => by rw [apply_ansi_formatting_undecorated])
  rw [hmap]
  rcases hva : c.v_align.getD AlignV.top with _ | _ | _
  · exact ⟨0, th - (rustLines c.data).length, by simp, by omega⟩
  · exact ⟨th - (rustLines c.data).length, 0, by simp, by omega⟩
  · refine ⟨(th - (rustLines c.data).length) / 2,
      th - (rustLines c.data).length - (th - (rustLines c.data).length) / 2, by simp, by omega⟩

theorem render_lines_undecorated_length (c : Cell) (hfg : c.fg_color = none)
    (hbg : c.bg_color = none) (hfs : c.font_style = FontStyleFlag.new) (th tw : Nat)
    (hth : (rustLines c.data).length ≤ th) :
    (c.render_lines th tw).length = th := by
  obtain ⟨nb, na, hshape, hsum⟩ := render_lines_undecorated_shape c hfg hbg hfs th tw
  rw [hshape]
  simp only [List.length_append, List.length_replicate, List.length_map]
  omega

theorem render_lines_undecorated_width (c : Cell) (hfg : c.fg_color = none)
    (hbg : c.bg_color = none) (hfs : c.font_style = FontStyleFlag.new) (th tw : Nat) :
    ∀ l ∈ c.render_lines th tw, l.length = tw := by
  obtain ⟨nb, na, hshape, _⟩ := render_lines_undecorated_shape c hfg hbg hfs th tw
  rw [hshape]
  intro l hl
  rcases List.mem_append.mp hl with hl2 | hpad
  · rcases List.mem_append.mp hl2 with hpad | hmain
    · rw [List.eq_of_mem_replicate hpad, List.length_replicate]
    · obtain ⟨raw, _, hraw⟩ := List.mem_map.mp hmain
      rw [← hraw, renderContentLine_self_length]
  · rw [List.eq_of_mem_replicate hpad, List.length_replicate]

theorem render_lines_top_undecorated (c : Cell) (hfg : c.fg_color = none)
    (hbg : c.bg_color = none) (hfs : c.font_style = FontStyleFlag.new)
    (hva : c.v_align = none) (th tw : Nat) :
    c.render_lines th tw
      = (rustLines c.data).map
          (fun raw => Cell.renderContentLine (c.h_align.getD .left) tw raw.length raw)
        ++ List.replicate (th - (rustLines c.data).length) (List.replicate tw ' ') := by
  unfold Cell.render_lines
  rw [hfg, hbg, hfs, hva]
  have hmap : (rustLines c.data).map
        (fun raw => Cell.renderContentLine (c.h_align.getD .left) tw raw.length
          (apply_ansi_formatting raw none none FontStyleFlag.new))
      = (rustLines c.data).map
        (fun raw => Cell.renderContentLine (c.h_align.getD .left) tw raw.length raw) :=
    List.map_congr_left (fun raw _ => by rw [apply_ansi_formatting_undecorated])
  rw [hmap]
  simp

theorem render_lines_undecorated_truncation (c : Cell) (hfg : c.fg_color = none)
    (hbg : c.bg_color = none) (hfs : c.font_style = FontStyleFlag.new)
    (hva : c.v_align = none) (th tw : Nat) (k : Nat) (l : Str)
    (hk : (rustLines c.data)[k]? = some l) (hlen : tw < l.length) :
    (c.render_lines th tw)[k]? = some (l.take tw) := by
  rw [render_lines_top_undecorated c hfg hbg hfs hva th tw]
  have hklt : k < (rustLines c.data).length := (List.getElem?_eq_some.mp hk).1
  rw [List.getElem?_append, if_pos (by simpa using hklt)]
  rw [List.getElem?_map, hk]
  have htr : Cell.renderContentLine (c.h_align.getD AlignH.left) tw l.length l = l.take tw := by
    unfold Cell.renderContentLine
    rw [if_neg (by omega), if_neg (by omega)]
  simp [htr]

/-! ### Support lemmas for the layout pass -/

theorem maxOrZero_eq_zero {l : List Nat} (h : ∀ x ∈ l, x = 0) : maxOrZero l = 0 := by
  induction l with
  | nil => rfl
  | cons a t ih =>
    have ha : a = 0 := h a (List.mem_cons_self a t)
    have ht := ih (fun x hx => h x (List.mem_cons_of_mem a hx))
    simp [maxOrZero] at ht ⊢
    exact ⟨ha, ht⟩

theorem getElem?_eq_some_getD {l : List α} {n : Nat} (h : n < l.length) (d : α) :
    l[n]? = some (l.getD n d) := by
  rw [List.getElem?_eq_getElem h, getD_eq, List.getElem?_eq_getElem h]
  rfl

theorem row_heights_default_row (g : Grid) (r : Nat) (hr : r < g.row_size)
    (hdef : ∀ c, c < g.col_size → g.get_cell r c = some Cell.default) :
    (g.row_heights)[r]? = some 0 := by
  unfold Grid.row_heights
  rw [List.getElem?_map, List.getElem?_range hr]
  show some _ = some 0
  congr 1
  apply maxOrZero_eq_zero
  intro x hx
  obtain ⟨c, hcr, hval⟩ := List.mem_map.mp hx
  have hc : c < g.col_size := List.mem_range.mp hcr
  rw [hdef c hc] at hval
  rw [← hval]
  rfl

theorem rowContentLines_of_height_zero (g : Grid) (rh cw : List Nat) (r : Nat)
    (h : rh.getD r 0 = 0) : g.rowContentLines rh cw r = [] := by
  unfold Grid.rowContentLines
  rw [h]
  rfl

/-! ### Claim theorems -/

/-- C1: for every grid produced by `new` or `from`, and after every mutation
(`set_cell`, `set_cells`, `set_row`, `set_col`, `insert_row`, `insert_col`,
`resize`, `clear`), the flat cell sequence has length
`row_count * col_count`; and the cell addressed by `(row, col)` lives at flat
index `row * col_count + col`: after an in-bounds `set_cell` the written cell
is read back by `get_cell`, which reads exactly that flat index. -/
theorem C1_length_invariant :
    (∀ r c, (Grid.new r c).inv)
  ∧ (∀ data, (Grid.fromData data).inv)
  ∧ (∀ (g : Grid) new_cells, g.inv → (g.set_cells new_cells).inv)
  ∧ (∀ (g : Grid) r c v, g.inv → r < g.row_size → c < g.col_size →
      ∃ g', g.set_cell r c v = .ok g' ∧ g'.inv
        ∧ g'.cells[r * g.col_size + c]? = some v ∧ g'.get_cell r c = some v)
  ∧ (∀ (g : Grid) r new_row, g.inv → r < g.row_size →
      ∃ g', g.set_row r new_row = .ok g' ∧ g'.inv)
  ∧ (∀ (g : Grid) ci new_col, g.inv → ci < g.col_size →
      ∃ g', g.set_col ci new_col = .ok g' ∧ g'.inv)
  ∧ (∀ (g : Grid) i data, g.inv → i ≤ g.row_size →
      ∃ g', g.insert_row i data = .ok g' ∧ g'.inv)
  ∧ (∀ (g : Grid) j data, g.inv → j < g.col_size →
      ∃ g', g.insert_col j data = .ok g' ∧ g'.inv)
  ∧ (∀ (g : Grid) nr nc, (g.resize nr nc).inv)
  ∧ (∀ g : Grid, g.clear.inv) := by
  refine ⟨new_inv, fromData_inv, set_cells_inv, ?_, ?_, ?_, ?_, ?_, ?_, ?_⟩
  · intro g r c v hInv hr hc
    have hInv' : g.cells.length = g.row_size * g.col_size := hInv
    have hlt : r * g.col_size + c < g.cells.length := by
      rw [hInv']
      exact flatIdx_lt hr hc
    refine ⟨{ g with cells := g.cells.set (r * g.col_size + c) v }, ?_, ?_, ?_, ?_⟩
    · unfold Grid.set_cell
      rw [if_neg (by omega), if_neg (by omega), if_neg (by omega)]
    · show (g.cells.set _ _).length = _
      rw [List.length_set]
      exact hInv'
    · exact List.getElem?_set_eq_of_lt v hlt
    · exact List.getElem?_set_eq_of_lt v hlt
  · intro g r new_row hInv hr
    refine ⟨{ g with cells := ((List.range g.col_size).foldl
        (fun acc k => acc.set (r * g.col_size + k) (new_row.getD k Cell.default)) g.cells) },
      ?_, ?_⟩
    · unfold Grid.set_row
      rw [if_neg (by omega)]
    · show ((List.range g.col_size).foldl _ g.cells).length = _
      rw [foldl_set_length (fun k => r * g.col_size + k) (fun k => new_row.getD k Cell.default)]
      exact hInv
  · intro g ci new_col hInv hc
    refine ⟨{ g with cells := ((List.range g.row_size).foldl
        (fun acc t => acc.set (ci + t * g.col_size) (new_col.getD t Cell.default)) g.cells) },
      ?_, ?_⟩
    · unfold Grid.set_col
      rw [if_neg (by omega)]
    · show ((List.range g.row_size).foldl _ g.cells).length = _
      rw [foldl_set_length (fun t => ci + t * g.col_size) (fun t => new_col.getD t Cell.default)]
      exact hInv
  · intro g i data hInv hi
    obtain ⟨g', heq, hrs, hcs, hlen, _⟩ := insert_row_spec g i data hInv hi
    exact ⟨g', heq, by show g'.cells.length = _; rw [hlen, hrs, hcs]⟩
  · intro g j data hInv hj
    obtain ⟨g', heq, hrs, hcs, hinv⟩ := insert_col_spec g j data hInv hj
    exact ⟨g', heq, hinv⟩
  · intro g nr nc
    obtain ⟨h1, h2, h3, _⟩ := resize_spec g nr nc
    show (g.resize nr nc).cells.length = _
    rw [h1, h2, h3]
  · intro g
    rfl

/-- Witness for C1 at a concrete grid. -/
theorem C1_length_invariant_witness :
    (Grid.new 2 3).inv
  ∧ ((Grid.new 2 3).resize 5 1).inv
  ∧ (Grid.new 2 3).clear.inv
  ∧ (Grid.fromData [[Cell.new "a".toList]]).inv
  ∧ (Grid.new 2 3).set_cell 1 2 (Cell.new "z".toList)
      = .ok { Grid.new 2 3 with
          cells := (Grid.new 2 3).cells.set (1 * 3 + 2) (Cell.new "z".toList) }
  ∧ { Grid.new 2 3 with
      cells := (Grid.new 2 3).cells.set (1 * 3 + 2) (Cell.new "z".toList) }.get_cell 1 2
      = some (Cell.new "z".toList) := by
  obtain ⟨g', hset, hinv, hflat, hget⟩ :=
    C1_length_invariant.2.2.2.1 (Grid.new 2 3) 1 2 (Cell.new "z".toList)
      (by decide) (by decide) (by decide)
  have hconc : (Grid.new 2 3).set_cell 1 2 (Cell.new "z".toList)
      = .ok { Grid.new 2 3 with
          cells := (Grid.new 2 3).cells.set (1 * 3 + 2) (Cell.new "z".toList) } := by decide
  have hg : g' = { Grid.new 2 3 with
      cells := (Grid.new 2 3).cells.set (1 * 3 + 2) (Cell.new "z".toList) } := by
    rw [hconc] at hset
    injection hset with h
    exact h.symm
  refine ⟨C1_length_invariant.1 2 3,
    C1_length_invariant.2.2.2.2.2.2.2.2.1 (Grid.new 2 3) 5 1,
    C1_length_invariant.2.2.2.2.2.2.2.2.2 (Grid.new 2 3),
    C1_length_invariant.2.1 [[Cell.new "a".toList]],
    hconc, ?_⟩
  rw [← hg]
  exact hget

/-- C8: for every grid satisfying the length invariant and every
`i ≤ row_count`, `insert_row i data` succeeds; rows below `i` keep their
cells, rows at or after `i` move down by one with identical values, row `i`
holds `data` padded with default cells or truncated to `col_count`, and at
`i = row_count` the operation appends the padded row at the bottom. -/
theorem C8_insert_row_shift (g : Grid) (i : Nat) (data : List Cell)
    (hInv : g.inv) (hi : i ≤ g.row_size) :
    ∃ g', g.insert_row i data = .ok g'
      ∧ g'.row_size = g.row_size + 1
      ∧ g'.col_size = g.col_size
      ∧ (∀ r c, r < i → c < g.col_size →
          g'.cells.getD (r * g.col_size + c) Cell.default
            = g.cells.getD (r * g.col_size + c) Cell.default)
      ∧ (∀ r c, i ≤ r → r < g.row_size → c < g.col_size →
          g'.cells.getD ((r + 1) * g.col_size + c) Cell.default
            = g.cells.getD (r * g.col_size + c) Cell.default)
      ∧ (∀ c, c < g.col_size →
          g'.cells.getD (i * g.col_size + c) Cell.default
            = (listResize data g.col_size Cell.default).getD c Cell.default)
      ∧ (i = g.row_size → g'.cells = g.cells ++ listResize data g.col_size Cell.default) := by
  have hInv' : g.cells.length = g.row_size * g.col_size := hInv
  obtain ⟨g', heq, hrs, hcs, hlen, hpt⟩ := insert_row_spec g i data hInv hi
  refine ⟨g', heq, hrs, hcs, ?_, ?_, ?_, ?_⟩
  · intro r c hri hc
    have h := hpt r c hc (by omega)
    rw [h, if_neg (by omega)]
  · intro r c hir hr hc
    have h := hpt (r + 1) c hc (by omega)
    rw [h, if_pos (by omega : i ≤ r + 1), if_neg (by omega : ¬ r + 1 = i),
        Nat.add_sub_cancel]
  · intro c hc
    have h := hpt i c hc hi
    rw [h, if_pos (Nat.le_refl i), if_pos rfl]
  · intro hieq
    have hglen : g.cells.length = i * g.col_size := by
      rw [hInv', ← hieq]
    have hpadlen : (listResize data g.col_size Cell.default).length = g.col_size :=
      length_listResize ..
    have hlenApp : (g.cells ++ listResize data g.col_size Cell.default).length
        = (i + 1) * g.col_size := by
      rw [List.length_append, hpadlen, hglen]
      ring
    have hlen' : g'.cells.length = (i + 1) * g.col_size := by
      rw [hlen, ← hieq]
    apply List.ext_getElem?
    intro n
    by_cases hn : n < (i + 1) * g.col_size
    · have hC : 0 < g.col_size := by
        rcases Nat.eq_zero_or_pos g.col_size with h0 | h0
        · rw [h0, Nat.mul_zero] at hn
          exact absurd hn (Nat.not_lt_zero n)
        · exact h0
      have hcn : n % g.col_size < g.col_size := Nat.mod_lt n hC
      have hrcn : (n / g.col_size) * g.col_size + n % g.col_size = n := by
        rw [Nat.mul_comm]
        exact Nat.div_add_mod n g.col_size
      have hrn : n / g.col_size ≤ i := by
        by_contra hx
        push_neg at hx
        have : (i + 1) * g.col_size ≤ (n / g.col_size) * g.col_size :=
          Nat.mul_le_mul_right _ hx
        omega
      have hng : n < g'.cells.length := by
        rw [hlen']
        exact hn
      rw [getElem?_eq_some_getD hng Cell.default]
      have h := hpt (n / g.col_size) (n % g.col_size) hcn (by omega)
      rw [hrcn] at h
      by_cases hri : n / g.col_size = i
      · rw [h, if_pos (by omega), if_pos hri]
        have hige : i * g.col_size ≤ n := by
          calc i * g.col_size = (n / g.col_size) * g.col_size := by rw [hri]
            _ ≤ n := by omega
        have hnge : ¬ (n < g.cells.length) := by
          rw [hglen]
          omega
        rw [List.getElem?_append, if_neg hnge]
        have hsub : n - g.cells.length = n % g.col_size := by
          rw [hglen]
          have h2 := hrcn
          rw [hri] at h2
          omega
        rw [hsub, getElem?_eq_some_getD (by rw [hpadlen]; exact hcn) Cell.default]
      · rw [h, if_neg (by omega)]
        have hnlt : n < g.cells.length := by
          rw [hglen]
          have hlt : n / g.col_size < i := by omega
          have := flatIdx_lt hlt hcn
          omega
        rw [List.getElem?_append, if_pos hnlt, getElem?_eq_some_getD hnlt Cell.default]
    · rw [List.getElem?_eq_none (by omega : g'.cells.length ≤ n),
          List.getElem?_eq_none (show (g.cells ++ listResize data g.col_size Cell.default).length ≤ n by omega)]

/-- Witness for C8 at a concrete grid, row index and row data. -/
theorem C8_insert_row_shift_witness :
    (Grid.fromData [[Cell.new "a".toList], [Cell.new "b".toList]]).insert_row 1
        [Cell.new "x".toList]
      = .ok ⟨[Cell.new "a".toList, Cell.new "x".toList, Cell.new "b".toList], 3, 1⟩
  ∧ (⟨[Cell.new "a".toList, Cell.new "x".toList, Cell.new "b".toList], 3, 1⟩ : Grid).cells.getD
        (1 * 1 + 0) Cell.default
      = (listResize [Cell.new "x".toList] 1 Cell.default).getD 0 Cell.default := by
  obtain ⟨g', heq, hrs, hcs, hbelow, hshift, hrow, happ⟩ :=
    C8_insert_row_shift (Grid.fromData [[Cell.new "a".toList], [Cell.new "b".toList]]) 1
      [Cell.new "x".toList] (by decide) (by decide)
  have hconc : (Grid.fromData [[Cell.new "a".toList], [Cell.new "b".toList]]).insert_row 1
      [Cell.new "x".toList]
      = .ok ⟨[Cell.new "a".toList, Cell.new "x".toList, Cell.new "b".toList], 3, 1⟩ := by decide
  have hg : g' = ⟨[Cell.new "a".toList, Cell.new "x".toList, Cell.new "b".toList], 3, 1⟩ := by
    rw [hconc] at heq
    injection heq with h
    exact h.symm
  refine ⟨hconc, ?_⟩
  rw [← hg]
  exact hrow 0 (by decide)

/-- C9: `resize(r, c)` followed by `resize` back to the original dimensions
keeps every cell in the overlap rectangle
`[0, min r row_count) × [0, min c col_count)` at its original value, and
every cell outside that rectangle is the default cell: the cells dropped by
the shrink are not restored. -/
theorem C9_resize_round_trip (g : Grid) (r c : Nat) (hInv : g.inv) :
    ((g.resize r c).resize g.row_size g.col_size).row_size = g.row_size
  ∧ ((g.resize r c).resize g.row_size g.col_size).col_size = g.col_size
  ∧ ((g.resize r c).resize g.row_size g.col_size).cells.length
      = g.row_size * g.col_size
  ∧ ∀ i j, i < g.row_size → j < g.col_size →
      ((g.resize r c).resize g.row_size g.col_size).cells.getD
          (i * g.col_size + j) Cell.default
        = if i < min r g.row_size ∧ j < min c g.col_size
          then g.cells.getD (i * g.col_size + j) Cell.default
          else Cell.default := by
  have _ := hInv
  obtain ⟨hr1, hc1, _, hp1⟩ := resize_spec g r c
  obtain ⟨hr2, hc2, hl2, hp2⟩ := resize_spec (g.resize r c) g.row_size g.col_size
  refine ⟨hr2, hc2, hl2, ?_⟩
  intro i j hi hj
  have h2 := hp2 i j hi hj
  rw [h2, hr1, hc1]
  by_cases hov : i < min r g.row_size ∧ j < min c g.col_size
  · rw [if_pos (⟨by omega, by omega⟩ : i < r ∧ j < c)]
    have h1 := hp1 i j (by omega) (by omega)
    rw [h1, if_pos ⟨by omega, by omega⟩, if_pos hov]
  · by_cases hrc2 : i < r ∧ j < c
    · rw [if_pos hrc2]
      have h1 := hp1 i j (by omega) (by omega)
      rw [h1, if_neg (by omega), if_neg hov]
    · rw [if_neg hrc2, if_neg hov]

/-- Witness for C9 at a concrete grid and shrink size. -/
theorem C9_resize_round_trip_witness :
    (((Grid.fromData [[Cell.new "a".toList, Cell.new "b".toList],
        [Cell.new "c".toList, Cell.new "d".toList]]).resize 1 1).resize
        (Grid.fromData [[Cell.new "a".toList, Cell.new "b".toList],
          [Cell.new "c".toList, Cell.new "d".toList]]).row_size
        (Grid.fromData [[Cell.new "a".toList, Cell.new "b".toList],
          [Cell.new "c".toList, Cell.new "d".toList]]).col_size).cells
      = [Cell.new "a".toList, Cell.default, Cell.default, Cell.default] := by
  obtain ⟨h1, h2, h3, h4⟩ :=
    C9_resize_round_trip (Grid.fromData [[Cell.new "a".toList, Cell.new "b".toList],
      [Cell.new "c".toList, Cell.new "d".toList]]) 1 1 (by decide)
  have ha := h4 0 0 (by decide) (by decide)
  have hb := h4 1 1 (by decide) (by decide)
  revert ha hb
  decide

/-- C2 (amended): for every cell WITHOUT color or style decoration and every
`target_height ≥` the content line count, `render_lines` returns exactly
`target_height` lines of exactly `target_width` characters each (no escape
sequences are injected, so the visible width is the plain length).  The
original claim fails for decorated cells: see the counterexample. -/
theorem C2_render_dimensions (c : Cell) (th tw : Nat)
    (hfg : c.fg_color = none) (hbg : c.bg_color = none)
    (hfs : c.font_style = FontStyleFlag.new)
    (hth : (rustLines c.data).length ≤ th) :
    (c.render_lines th tw).length = th
  ∧ ∀ l ∈ c.render_lines th tw, l.length = tw :=
  ⟨render_lines_undecorated_length c hfg hbg hfs th tw hth,
   render_lines_undecorated_width c hfg hbg hfs th tw⟩

/-- Witness for C2 at a concrete undecorated cell. -/
theorem C2_render_dimensions_witness :
    ((Cell.new "ab\ncdef".toList).render_lines 3 5).length = 3
  ∧ ("ab   ".toList).length = 5 := by
  obtain ⟨hlen, hwid⟩ :=
    C2_render_dimensions (Cell.new "ab\ncdef".toList) 3 5 rfl rfl rfl (by decide)
  exact ⟨hlen, hwid ("ab   ".toList) (by decide)⟩

/-- Counterexample to C2 as stated: a red cell with a 10-character line
rendered at `target_height = 1 ≥ 1` content line and `target_width = 6`
yields one line whose visible width (escape sequences stripped) is 1, not 6,
because the truncation slices the decorated string. -/
theorem C2_render_dimensions_counterexample :
    (rustLines ((Cell.new "abcdefghij".toList).set_color Color.RED).data).length ≤ 1
  ∧ ((Cell.new "abcdefghij".toList).set_color Color.RED).render_lines 1 6
      = ["\x1b[31ma".toList]
  ∧ ¬ (∀ l ∈ ((Cell.new "abcdefghij".toList).set_color Color.RED).render_lines 1 6,
        (stripAnsi l).length = 6) := by
  refine ⟨by decide, by decide, ?_⟩
  intro h
  have := h ("\x1b[31ma".toList) (by decide)
  revert this
  decide

/-- C4 (amended): for every cell WITHOUT color or style decoration and with
vertical alignment unset (default Top), every content line longer than
`target_width` renders as its first `target_width` characters; concretely, a
cell with 10-character content at width 6 and default Left alignment renders
as the first 6 characters.  The original claim fails for decorated cells:
see the counterexample. -/
theorem C4_truncation (c : Cell) (th tw : Nat)
    (hfg : c.fg_color = none) (hbg : c.bg_color = none)
    (hfs : c.font_style = FontStyleFlag.new) (hva : c.v_align = none) :
    (∀ (k : Nat) (l : Str), (rustLines c.data)[k]? = some l → tw < l.length →
      (c.render_lines th tw)[k]? = some (l.take tw))
  ∧ (Cell.new "abcdefghij".toList).render_lines 1 6 = ["abcdef".toList] :=
  ⟨fun k l hk hlen => render_lines_undecorated_truncation c hfg hbg hfs hva th tw k l hk hlen,
   by decide⟩

/-- Witness for C4 at a concrete undecorated overlong cell. -/
theorem C4_truncation_witness :
    ((Cell.new "abcdefghij".toList).render_lines 1 6)[0]?
      = some ("abcdefghij".toList.take 6) :=
  (C4_truncation (Cell.new "abcdefghij".toList) 1 6 rfl rfl rfl rfl).1 0
    ("abcdefghij".toList) (by decide) (by decide)

/-- Counterexample to C4 as stated: with a red foreground the truncated line
is the first 6 characters of the DECORATED string (slicing into the escape
prefix); its visible part is `"a"`, not the first 6 content characters, and
the decoration's reset code is lost. -/
theorem C4_truncation_counterexample :
    ((Cell.new "abcdefghij".toList).set_color Color.RED).render_lines 1 6
      = ["\x1b[31ma".toList]
  ∧ stripAnsi "\x1b[31ma".toList ≠ "abcdefghij".toList.take 6 := by
  exact ⟨by decide, by decide⟩

/-- C5 (amended): on a string outside the documented vocabulary,
`set_align_from` and `set_style_from` leave the cell entirely unchanged,
but `set_color` and `set_highlight` overwrite the attribute with the parse
result `none`, clearing any previously set color (still without an error).
The original "prior value retained" claim fails for the two color setters:
see the counterexample. -/
theorem C5_unrecognized_strings (c : Cell) (s : Str)
    (h1 : s ≠ AlignString.TOP) (h2 : s ≠ AlignString.BOTTOM)
    (h3 : s ≠ AlignString.MIDDLE) (h4 : s ≠ AlignString.LEFT)
    (h5 : s ≠ AlignString.RIGHT) (h6 : s ≠ AlignString.CENTER)
    (hstyle : FontStyle.from_str s = none)
    (hfg : Foreground.from_str s = none)
    (hbg : Background.from_str s = none) :
    c.set_align_from s = c
  ∧ c.set_style_from s = c
  ∧ c.set_color s = { c with fg_color := none }
  ∧ c.set_highlight s = { c with bg_color := none } := by
  refine ⟨?_, ?_, ?_, ?_⟩
  · unfold Cell.set_align_from
    rw [if_neg h1, if_neg h2, if_neg h3, if_neg h4, if_neg h5, if_neg h6]
  · unfold Cell.set_style_from
    rw [hstyle]
  · unfold Cell.set_color
    rw [hfg]
  · unfold Cell.set_highlight
    rw [hbg]

/-- Witness for C5 at a concrete cell and unrecognized string. -/
theorem C5_unrecognized_strings_witness :
    ((Cell.new "x".toList).set_color Color.RED).set_align_from "bogus".toList
      = (Cell.new "x".toList).set_color Color.RED
  ∧ ((Cell.new "x".toList).set_color Color.RED).set_color "bogus".toList
      = { (Cell.new "x".toList).set_color Color.RED with fg_color := none } := by
  obtain ⟨ha, _, hc, _⟩ := C5_unrecognized_strings ((Cell.new "x".toList).set_color Color.RED)
    "bogus".toList (by decide) (by decide) (by decide) (by decide) (by decide) (by decide)
    (by decide) (by decide) (by decide)
  exact ⟨ha, hc⟩

/-- Counterexample to C5 as stated: a cell with red foreground passed an
unrecognized color string does NOT retain the prior value; the foreground is
cleared to unset (and no error is raised). -/
theorem C5_unrecognized_strings_counterexample :
    ((Cell.new "x".toList).set_color Color.RED).fg_color = some Foreground.red
  ∧ Foreground.from_str "bogus".toList = none
  ∧ (((Cell.new "x".toList).set_color Color.RED).set_color "bogus".toList).fg_color = none
  ∧ ((Cell.new "x".toList).set_color Color.RED).set_color "bogus".toList
      ≠ (Cell.new "x".toList).set_color Color.RED := by
  exact ⟨by decide, by decide, by decide, by decide⟩

/-- C7 (amended): the string-based alignment setter `set_align_from` touches
only the axis named by the string and retains the other axis; the
bitflag-based `set_align` instead overwrites BOTH axes with the given
`Align`'s per-axis resolution, so a vertical-only `Align` (whose `get_h` is
`none`) clears a previously set horizontal alignment, and symmetrically.
The original "never clears the other axis" claim fails for `set_align`: see
the counterexample. -/
theorem C7_alignment_axes (c : Cell) (a : Align) :
    ((c.set_align_from AlignString.TOP).h_align = c.h_align
      ∧ (c.set_align_from AlignString.BOTTOM).h_align = c.h_align
      ∧ (c.set_align_from AlignString.MIDDLE).h_align = c.h_align
      ∧ (c.set_align_from AlignString.LEFT).v_align = c.v_align
      ∧ (c.set_align_from AlignString.RIGHT).v_align = c.v_align
      ∧ (c.set_align_from AlignString.CENTER).v_align = c.v_align)
  ∧ ((c.set_align a).h_align = a.get_h ∧ (c.set_align a).v_align = a.get_v)
  ∧ (Align.Top.get_h = none ∧ Align.Bottom.get_h = none ∧ Align.Middle.get_h = none
      ∧ Align.Left.get_v = none ∧ Align.Right.get_v = none
      ∧ Align.Center.get_v = none) := by
  refine ⟨⟨?_, ?_, ?_, ?_, ?_, ?_⟩, ⟨rfl, rfl⟩, by decide⟩
  · unfold Cell.set_align_from
    rw [if_pos rfl]
  · unfold Cell.set_align_from
    rw [if_neg (by decide), if_pos rfl]
  · unfold Cell.set_align_from
    rw [if_neg (by decide), if_neg (by decide), if_pos rfl]
  · unfold Cell.set_align_from
    rw [if_neg (by decide), if_neg (by decide), if_neg (by decide), if_pos rfl]
  · unfold Cell.set_align_from
    rw [if_neg (by decide), if_neg (by decide), if_neg (by decide), if_neg (by decide),
        if_pos rfl]
  · unfold Cell.set_align_from
    rw [if_neg (by decide), if_neg (by decide), if_neg (by decide), if_neg (by decide),
        if_neg (by decide), if_pos rfl]

/-- Counterexample to C7 as stated: a cell whose horizontal alignment was set
to Right loses it when `set_align` is given the vertical-only `Align.Top`. -/
theorem C7_alignment_axes_counterexample :
    ((Cell.new "x".toList).set_align Align.Right).h_align = some AlignH.right
  ∧ (((Cell.new "x".toList).set_align Align.Right).set_align Align.Top).h_align = none := by
  exact ⟨by decide, by decide⟩

/-- C3 (evaluation at the failing input): `get_cell` checks only the flat
index against the vector length, so on a 2-by-2 grid the out-of-bounds
request `(0, 2)` silently yields the cell stored at flat index 2, which is
position `(1, 0)` — instead of `None` as its documentation promises;
`get_cell_mut` computes the same index, while `try_set_cell` reports the
correct error kinds. -/
theorem C3_get_cell_flat_index_bug :
    (Grid.new 2 2).col_size = 2
  ∧ (Grid.new 2 2).get_cell 0 2 = some Cell.default
  ∧ (Grid.new 2 2).get_cell_mut 0 2 = some Cell.default
  ∧ (Grid.fromData [[Cell.new "a".toList, Cell.new "b".toList],
      [Cell.new "c".toList, Cell.new "d".toList]]).get_cell 0 2 = some (Cell.new "c".toList)
  ∧ (Grid.new 2 2).try_set_cell 2 0 Cell.default = .error .rowIndexOutOfBounds
  ∧ (Grid.new 2 2).try_set_cell 0 2 Cell.default = .error .colIndexOutOfBounds
  ∧ (Grid.new 2 2).try_set_cell 2 2 Cell.default = .error .rowAndColIndexOutOfBounds := by
  exact ⟨by decide, by decide, by decide, by decide, by decide, by decide, by decide⟩

/-- C6 (evaluation at the failing input): inserting a row at
`index = row_count` (append) succeeds in both variants, but inserting a
column at `index = col_count` aborts in BOTH variants: `insert_col` rejects
`col_index ≥ col_size`, and `try_insert_col` accepts `col_index = col_size`
(its own bound is `> col_size`) and then delegates to the aborting
`insert_col`. -/
theorem C6_append_asymmetry :
    (Grid.new 1 1).insert_row 1 [] = .ok ⟨[Cell.default, Cell.default], 2, 1⟩
  ∧ (Grid.new 1 1).try_insert_row 1 []
      = .ok (.ok ⟨[Cell.default, Cell.default], 2, 1⟩)
  ∧ (Grid.new 1 1).insert_col 1 [] = .panicked ErrorMessage.COL_INDEX_OUT_OF_BOUNDS
  ∧ (Grid.new 1 1).try_insert_col 1 [] = .panicked ErrorMessage.COL_INDEX_OUT_OF_BOUNDS
  ∧ (Grid.new 1 1).try_insert_col 2 [] = .ok (.error .colIndexOutOfBounds) := by
  exact ⟨by decide, by decide, by decide, by decide, by decide⟩

/-- C10: a cell with empty content has automatic height 0 and width 0 (not
1); a row of default cells therefore gets row height 0 in the layout pass
and contributes no content lines to the Display output, so its borders are
emitted on consecutive lines, as the concrete 2-by-1 default grid shows. -/
theorem C10_empty_cell_zero_height :
    (Cell.new []).height = 0
  ∧ (Cell.new []).width = 0
  ∧ Cell.default.height = 0
  ∧ Cell.default.width = 0
  ∧ (∀ (g : Grid) (r : Nat), r < g.row_size →
      (∀ c, c < g.col_size → g.get_cell r c = some Cell.default) →
      (g.row_heights)[r]? = some 0
        ∧ g.rowContentLines g.row_heights g.col_widths r = [])
  ∧ (Grid.new 2 1).displayLines
      = [" ┌──┐ ".toList, " ├──┤ ".toList, " └──┘ ".toList] := by
  refine ⟨rfl, rfl, rfl, rfl, ?_, by decide⟩
  intro g r hr hdef
  have hrh := row_heights_default_row g r hr hdef
  refine ⟨hrh, ?_⟩
  apply rowContentLines_of_height_zero
  rw [getD_eq, hrh]
  rfl

/-- Witness for C10's universally quantified part at a concrete grid. -/
theorem C10_empty_cell_zero_height_witness :
    ((Grid.new 3 2).row_heights)[1]? = some 0
  ∧ (Grid.new 3 2).rowContentLines (Grid.new 3 2).row_heights
      (Grid.new 3 2).col_widths 1 = [] :=
  C10_empty_cell_zero_height.2.2.2.2.1 (Grid.new 3 2) 1 (by decide) (fun c hc => by
    have hc2 : c < 2 := hc
    interval_cases c <;> decide)
